import Mathlib

/-!
# The ECLib library binder (`BLWrap.cpp` / `BLWrap.h`)

A shallow embedding of the dynamic-loading shim of the MFC sample
(`MFCDynamicDLLCall/MFCSample/BLWrap.cpp`): the two file-level globals
`initialized` and `ECLib`, the helper `BL_getProcFor`, the `GET_PROC` macro and
the two lifecycle functions `BL_Init` and `BL_End`.

Modelling conventions.

* `HMODULE` and `FARPROC` are natural numbers, `0` being the null handle / null
  address.
* The Win32 calls `LoadLibrary` and `GetProcAddress` are answers of the
  environment.  During one `BL_Init` the code calls `LoadLibrary` once and
  `GetProcAddress` once per symbol name, so the answers of any operating system
  are given by two functions (`Win32`); every call of a call sequence carries
  its own answers.
* Every externally visible effect (Win32 call, `printf`, the assignment to the
  by-reference parameter `functions`) is appended to a ghost log kept next to
  the globals, oldest event first.
-/

namespace BLWrap

/-- A module handle; `0` is the null handle. -/
abbrev HMODULE := Nat

/-- A procedure address; `0` is the null address. -/
abbrev FARPROC := Nat

/-- The C type `INT32` of the status of `BL_getProcFor` (only `0` and `1` occur). -/
abbrev INT32 := Nat

/-- The Win32 type `BOOL` (an `int`) of the local `error` of `BL_Init`. -/
abbrev BOOL := Nat

/-- Modelled from the spec: the enumeration `TErrorCodes_e` is declared in
`BLStructs.h`, which is not among the sources; these are the three codes the
binder returns (success sentinel, invalid argument, function failed). -/
inductive TErrorCodes_e where
  | ERR_NOERROR
  | ERR_GEN_INVALIDPARAMETERS
  | ERR_GEN_FUNCTIONFAILED
  deriving DecidableEq, Repr

export TErrorCodes_e (ERR_NOERROR ERR_GEN_INVALIDPARAMETERS ERR_GEN_FUNCTIONFAILED)

/-- The function-pointer fields of `struct _TEClibFunctions` (`BLWrap.h`,
lines 161-192), in declaration order, one constructor per field. -/
inductive Field where
  | BL_GetLibVersion
  | BL_GetVolumeSerialNumber
  | BL_GetErrorMsg
  | BL_Connect
  | BL_Disconnect
  | BL_TestConnection
  | BL_TestCommSpeed
  | BL_GetUSBdeviceinfos
  | BL_LoadFirmware
  | BL_IsChannelPlugged
  | BL_GetChannelsPlugged
  | BL_GetChannelInfos
  | BL_GetMessage
  | BL_GetHardConf
  | BL_SetHardConf
  | BL_LoadTechnique
  | BL_DefineBoolParameter
  | BL_DefineSglParameter
  | BL_DefineIntParameter
  | BL_UpdateParameters
  | BL_StartChannel
  | BL_StartChannels
  | BL_StopChannel
  | BL_StopChannels
  | BL_GetCurrentValues
  | BL_GetData
  | BL_GetFCTData
  | BL_ConvertNumericIntoSingle
  | BL_SetExperimentInfos
  | BL_GetExperimentInfos
  | BL_SendMsg
  | BL_LoadFlash
  deriving DecidableEq, Repr, Fintype

/-- The field's own name as a C string: what the preprocessor's `#name` yields
when `GET_PROC( name )` is expanded. -/
def Field.name : Field → String
  | .BL_GetLibVersion => "BL_GetLibVersion"
  | .BL_GetVolumeSerialNumber => "BL_GetVolumeSerialNumber"
  | .BL_GetErrorMsg => "BL_GetErrorMsg"
  | .BL_Connect => "BL_Connect"
  | .BL_Disconnect => "BL_Disconnect"
  | .BL_TestConnection => "BL_TestConnection"
  | .BL_TestCommSpeed => "BL_TestCommSpeed"
  | .BL_GetUSBdeviceinfos => "BL_GetUSBdeviceinfos"
  | .BL_LoadFirmware => "BL_LoadFirmware"
  | .BL_IsChannelPlugged => "BL_IsChannelPlugged"
  | .BL_GetChannelsPlugged => "BL_GetChannelsPlugged"
  | .BL_GetChannelInfos => "BL_GetChannelInfos"
  | .BL_GetMessage => "BL_GetMessage"
  | .BL_GetHardConf => "BL_GetHardConf"
  | .BL_SetHardConf => "BL_SetHardConf"
  | .BL_LoadTechnique => "BL_LoadTechnique"
  | .BL_DefineBoolParameter => "BL_DefineBoolParameter"
  | .BL_DefineSglParameter => "BL_DefineSglParameter"
  | .BL_DefineIntParameter => "BL_DefineIntParameter"
  | .BL_UpdateParameters => "BL_UpdateParameters"
  | .BL_StartChannel => "BL_StartChannel"
  | .BL_StartChannels => "BL_StartChannels"
  | .BL_StopChannel => "BL_StopChannel"
  | .BL_StopChannels => "BL_StopChannels"
  | .BL_GetCurrentValues => "BL_GetCurrentValues"
  | .BL_GetData => "BL_GetData"
  | .BL_GetFCTData => "BL_GetFCTData"
  | .BL_ConvertNumericIntoSingle => "BL_ConvertNumericIntoSingle"
  | .BL_SetExperimentInfos => "BL_SetExperimentInfos"
  | .BL_GetExperimentInfos => "BL_GetExperimentInfos"
  | .BL_SendMsg => "BL_SendMsg"
  | .BL_LoadFlash => "BL_LoadFlash"

/-- The table `struct _TEClibFunctions`: the library handle and one procedure
address per function-pointer field. -/
structure TEClibFunctions where
  /-- The field `hECLibDll`, the handle obtained from `LoadLibrary`. -/
  hECLibDll : HMODULE
  /-- The 32 function-pointer fields, indexed by field. -/
  proc : Field → FARPROC

/-- The table after `memset(&ECLib, 0, sizeof( TEClibFunctions ))`; also the
value of the zero-initialised static `ECLib` at program start. -/
def TEClibFunctions.zero : TEClibFunctions :=
  { hECLibDll := 0, proc := fun _ => 0 }

/-- The store `*procedure = value` through a pointer to the field `f`. -/
def TEClibFunctions.store (t : TEClibFunctions) (f : Field) (value : FARPROC) :
    TEClibFunctions :=
  { t with proc := fun g => if g = f then value else t.proc g }

/-- A value of type `TEClibFunctions*`.  The static `ECLib` is the only table
object of the program, so a table pointer is null or the address `&ECLib`. -/
inductive TablePtr where
  | null
  | ECLib
  deriving DecidableEq, Repr

/-- The externally visible effects of the binder. -/
inductive Event where
  /-- The call `LoadLibrary(path)` and the handle it returned. -/
  | LoadLibrary (path : String) (ret : HMODULE)
  /-- The call `GetProcAddress(dll, name)` and the address it returned. -/
  | GetProcAddress (dll : HMODULE) (procName : String) (ret : FARPROC)
  /-- The call `FreeLibrary(dll)`. -/
  | FreeLibrary (dll : HMODULE)
  /-- The call `printf(format, args...)` on the standard output. -/
  | printf (format : String) (args : List String)
  /-- The assignment `functions = &ECLib` to the caller's reference. -/
  | assignFunctions
  deriving DecidableEq, Repr

/-- The answers of the operating system during one call of `BL_Init`. -/
structure Win32 where
  /-- The handle `LoadLibrary` returns for a path (`0` when the load fails). -/
  LoadLibrary : String → HMODULE
  /-- The address `GetProcAddress` returns (`0` when the symbol is missing). -/
  GetProcAddress : HMODULE → String → FARPROC

/-- The file-level statics of `BLWrap.cpp` together with the ghost log. -/
structure Globals where
  /-- The flag `static BOOL initialized`. -/
  initialized : Bool
  /-- The table `static TEClibFunctions ECLib`. -/
  ECLib : TEClibFunctions
  /-- The effects performed so far, oldest first. -/
  log : List Event

/-- The state at program start: `initialized = false`, `ECLib` zero-initialised,
nothing done yet. -/
def Globals.initial : Globals :=
  { initialized := false, ECLib := TEClibFunctions.zero, log := [] }

/-- The format string of the diagnostic of `BL_getProcFor`. -/
def notFoundFormat : String :=
  "Could not find the procedure '%s' in the DLL file.\n"

/-- The text printed by `BL_Init` when some procedure was not found. -/
def abortFormat : String :=
  "An error occured while retrieving the DLL functions. You should abort.\n"

/-- The helper `BL_getProcFor( procedure, procedure_name, dll )`
(`BLWrap.cpp`, lines 12-24).  `procedure` is a pointer to a field of `ECLib`
(`none` is the null pointer), `procedure_name` a C string (`none` is null).
Returns `0` if the procedure was found, `1` otherwise. -/
def BL_getProcFor (os : Win32) (procedure : Option Field)
    (procedure_name : Option String) (dll : HMODULE) (s : Globals) :
    INT32 × Globals :=
  match procedure, procedure_name with
  | some p, some nm =>
    if dll ≠ 0 then
      let addr := os.GetProcAddress dll nm
      let s1 : Globals :=
        { s with ECLib := s.ECLib.store p addr,
                 log := s.log ++ [Event.GetProcAddress dll nm addr] }
      if addr = 0 then
        (1, { s1 with log := s1.log ++ [Event.printf notFoundFormat [nm]] })
      else
        (0, s1)
    else (1, s)
  | _, _ => (1, s)

/-- The macro `GET_PROC( name )`, that is
`BL_getProcFor( (FARPROC *)&(ECLib.name), #name, ECLib.hECLibDll )`. -/
def GET_PROC (os : Win32) (name : Field) (s : Globals) : INT32 × Globals :=
  BL_getProcFor os (some name) (some name.name) s.ECLib.hECLibDll s

/-- The arguments of the 32 statements `error |= GET_PROC( name );` of
`BL_Init` (`BLWrap.cpp`, lines 52-84), in program order. -/
def procedures : List Field :=
  [ .BL_GetLibVersion,
    .BL_GetVolumeSerialNumber,
    .BL_GetErrorMsg,
    .BL_Connect,
    .BL_Disconnect,
    .BL_TestConnection,
    .BL_TestCommSpeed,
    .BL_GetUSBdeviceinfos,
    .BL_LoadFirmware,
    .BL_IsChannelPlugged,
    .BL_GetChannelsPlugged,
    .BL_GetChannelInfos,
    .BL_GetMessage,
    .BL_GetHardConf,
    .BL_SetHardConf,
    .BL_LoadTechnique,
    .BL_DefineBoolParameter,
    .BL_DefineSglParameter,
    .BL_DefineIntParameter,
    .BL_UpdateParameters,
    .BL_StartChannel,
    .BL_StartChannels,
    .BL_StopChannel,
    .BL_StopChannels,
    .BL_GetCurrentValues,
    .BL_GetData,
    .BL_GetFCTData,
    .BL_ConvertNumericIntoSingle,
    .BL_SetExperimentInfos,
    .BL_GetExperimentInfos,
    .BL_SendMsg,
    .BL_LoadFlash ]

/-- One statement `error |= GET_PROC( name );`: the call is made whatever the
value of `error`, and its status is or-ed into `error`. -/
def getProcStep (os : Win32) (acc : BOOL × Globals) (name : Field) : BOOL × Globals :=
  let r := GET_PROC os name acc.2
  (acc.1 ||| r.1, r.2)

/-- The statements `error |= GET_PROC( name );` for the given names, run in
order from the given value of `error`. -/
def getProcs (os : Win32) (names : List Field) (acc : BOOL × Globals) : BOOL × Globals :=
  names.foldl (getProcStep os) acc

/-- The function `BL_End` (`BLWrap.cpp`, lines 107-117). -/
def BL_End (s : Globals) : TErrorCodes_e × Globals :=
  let s1 : Globals :=
    if s.initialized = true ∧ s.ECLib.hECLibDll ≠ 0 then
      { s with log := s.log ++ [Event.FreeLibrary s.ECLib.hECLibDll] }
    else s
  let s2 : Globals := { s1 with ECLib := TEClibFunctions.zero }
  let s3 : Globals := { s2 with initialized := false }
  (ERR_NOERROR, s3)

/-- The function `BL_Init( eclibPath, functions )` (`BLWrap.cpp`, lines 39-99).
`functions` is the value of the caller's variable before the call; the result
is the returned status, the value of the caller's variable after the call, and
the globals after the call. -/
def BL_Init (os : Win32) (eclibPath : String) (functions : TablePtr) (s : Globals) :
    TErrorCodes_e × TablePtr × Globals :=
  if eclibPath.isEmpty then (ERR_GEN_INVALIDPARAMETERS, functions, s)
  else
    let r0 := BL_End s
    let status := r0.1
    let h := os.LoadLibrary eclibPath
    let s1 : Globals :=
      { r0.2 with ECLib := { r0.2.ECLib with hECLibDll := h },
                  log := r0.2.log ++ [Event.LoadLibrary eclibPath h] }
    let r : TErrorCodes_e × TablePtr × Globals :=
      if s1.ECLib.hECLibDll ≠ 0 then
        let e := getProcs os procedures (0, s1)
        if e.1 ≠ 0 then
          (ERR_GEN_FUNCTIONFAILED, functions,
            { e.2 with log := e.2.log ++ [Event.printf abortFormat []] })
        else
          (status, TablePtr.ECLib, { e.2 with log := e.2.log ++ [Event.assignFunctions] })
      else
        (ERR_GEN_FUNCTIONFAILED, functions, s1)
    (r.1, r.2.1, { r.2.2 with initialized := true })

/-! ## Reading the log -/

/-- The events a call appended to the log: what the log after the call holds
beyond the log before it. -/
def emitted (before after : Globals) : List Event :=
  after.log.drop before.log.length

/-- The symbol name of a `GetProcAddress` call, nothing for any other event. -/
def Event.resolvedName : Event → Option String
  | .GetProcAddress _ nm _ => some nm
  | _ => none

/-- The symbol named by a "could not find the procedure" message: the argument
of a `printf` with the format of `BL_getProcFor`; nothing for any other event. -/
def Event.notFoundName : Event → Option String
  | .printf fmt [nm] => if fmt = notFoundFormat then some nm else none
  | _ => none

/-- Whether the event is a call of `LoadLibrary`. -/
def Event.isLoad : Event → Bool
  | .LoadLibrary _ _ => true
  | _ => false

/-- Whether the event is a call of `GetProcAddress`. -/
def Event.isResolve : Event → Bool
  | .GetProcAddress _ _ _ => true
  | _ => false

/-- Whether the event is a call of `FreeLibrary`. -/
def Event.isFree : Event → Bool
  | .FreeLibrary _ => true
  | _ => false

/-- Whether the event is the assignment to the caller's table reference. -/
def Event.isAssign : Event → Bool
  | .assignFunctions => true
  | _ => false

/-- The change an event makes to the number of loaded-and-not-released
libraries: a `LoadLibrary` that returned a non-null handle adds one, a
`FreeLibrary` takes one away. -/
def Event.delta : Event → Int
  | .LoadLibrary _ ret => if ret ≠ 0 then 1 else 0
  | .FreeLibrary _ => -1
  | _ => 0

/-- The number of successful library loads of a trace not yet matched by a
release. -/
def outstanding (trace : List Event) : Int :=
  (trace.map Event.delta).sum

/-- The events of one `GET_PROC( name )` on a loaded library `dll`: the
resolution call and, when it returned null, the diagnostic naming the symbol. -/
def procEvents (os : Win32) (dll : HMODULE) (f : Field) : List Event :=
  Event.GetProcAddress dll f.name (os.GetProcAddress dll f.name) ::
    (if os.GetProcAddress dll f.name = 0 then [Event.printf notFoundFormat [f.name]] else [])

/-- The events of `BL_End` from the state `s`: the release of the held handle
when the flag is set and the handle is non-null, nothing otherwise. -/
def freeEvents (s : Globals) : List Event :=
  if s.initialized = true ∧ s.ECLib.hECLibDll ≠ 0 then
    [Event.FreeLibrary s.ECLib.hECLibDll]
  else []

/-- Whether the library `os` loads for `eclibPath` exports every one of the 32
required symbols (each resolves to a non-null address). -/
def allResolve (os : Win32) (eclibPath : String) : Prop :=
  ∀ f, f ∈ procedures → os.GetProcAddress (os.LoadLibrary eclibPath) f.name ≠ 0

instance (os : Win32) (eclibPath : String) : Decidable (allResolve os eclibPath) := by
  unfold allResolve; infer_instance

/-- The table bound to the library `os` loads for `eclibPath`: its handle is
the handle the load returned and every field holds the address resolved from
that handle for the field's own name. -/
def boundTable (os : Win32) (eclibPath : String) : TEClibFunctions :=
  { hECLibDll := os.LoadLibrary eclibPath,
    proc := fun f => os.GetProcAddress (os.LoadLibrary eclibPath) f.name }

/-- The events of a `BL_Init` on a path whose library loads, up to and
including the 32 resolutions: the release made by the leading `BL_End`, the
load, and the events of each `GET_PROC` in program order. -/
def loadedEvents (os : Win32) (eclibPath : String) (s : Globals) : List Event :=
  freeEvents s ++ [Event.LoadLibrary eclibPath (os.LoadLibrary eclibPath)]
    ++ procedures.flatMap (procEvents os (os.LoadLibrary eclibPath))

/-- The 32 fixed symbol names, in table order. -/
def symbolNames : List String :=
  procedures.map Field.name

/-! ## Call sequences and the two states -/

/-- One call of the binder's interface, with the answers of the operating
system and the caller's table reference for a `BL_Init`. -/
inductive Call where
  | Init (os : Win32) (eclibPath : String) (functions : TablePtr)
  | End

/-- The globals after one call. -/
def Call.exec (s : Globals) : Call → Globals
  | .Init os eclibPath functions => (BL_Init os eclibPath functions s).2.2
  | .End => (BL_End s).2

/-- The globals after a sequence of calls made one after the other. -/
def run (calls : List Call) (s : Globals) : Globals :=
  calls.foldl Call.exec s

/-- The state `Uninitialized`: the initialized flag is false, the library
handle is null and every entry of the table is null. -/
def Uninitialized (s : Globals) : Prop :=
  s.initialized = false ∧ s.ECLib.hECLibDll = 0 ∧ ∀ f : Field, s.ECLib.proc f = 0

instance (s : Globals) : Decidable (Uninitialized s) := by
  unfold Uninitialized; infer_instance

/-- The state `Ready`: the table holds a loaded library (non-null handle, to
be released by the next `BL_End`) and every entry is resolved. -/
def Ready (s : Globals) : Prop :=
  s.initialized = true ∧ s.ECLib.hECLibDll ≠ 0 ∧ ∀ f : Field, s.ECLib.proc f ≠ 0

instance (s : Globals) : Decidable (Ready s) := by
  unfold Ready; infer_instance

/-- Whether a table reference leads to a table containing a non-null function
pointer: it points at `ECLib` and some entry of `ECLib` is non-null. -/
def exposesLiveEntry (functions : TablePtr) (s : Globals) : Prop :=
  functions = TablePtr.ECLib ∧ ∃ f : Field, s.ECLib.proc f ≠ 0

instance (functions : TablePtr) (s : Globals) : Decidable (exposesLiveEntry functions s) := by
  unfold exposesLiveEntry; infer_instance

/-- Whether the event is a library load or a library release. -/
def Event.isLoadOrFree (e : Event) : Bool :=
  e.isLoad || e.isFree

/-- At every point of the trace the number of successful loads not yet matched
by a release is zero or one. -/
def AtMostOneHeld (trace : List Event) : Prop :=
  ∀ n, 0 ≤ outstanding (trace.take n) ∧ outstanding (trace.take n) ≤ 1

/-- The invariant of the binder between calls: at most one library was held at
every point of the trace so far, one is held now exactly when the handle of
the table is non-null, and a non-null handle comes with the flag set. -/
def LifecycleInv (s : Globals) : Prop :=
  AtMostOneHeld s.log ∧
  outstanding s.log = (if s.ECLib.hECLibDll ≠ 0 then 1 else 0) ∧
  (s.ECLib.hECLibDll ≠ 0 → s.initialized = true)

/-- Whether the event is a message printed on the diagnostic stream. -/
def Event.isPrintf : Event → Bool
  | .printf _ _ => true
  | _ => false

/-- A state `s` in which a library is loaded: the flag is set and the table
holds a non-null handle (the handle the next `BL_End` releases). -/
def LibraryLoaded (s : Globals) : Prop :=
  s.initialized = true ∧ s.ECLib.hECLibDll ≠ 0

instance (s : Globals) : Decidable (LibraryLoaded s) := by
  unfold LibraryLoaded; infer_instance

/-- One step of the release ledger.  The ledger remembers the handle of the
most recent successful load that has not been released since; a successful
load records its handle, a release is accepted only for the recorded non-null
handle and clears the record, a release of anything else is refused (`none`);
every other event leaves the record as it is. -/
def ledgerStep (held : Option HMODULE) : Event → Option (Option HMODULE)
  | .LoadLibrary _ ret => if ret = 0 then some held else some (some ret)
  | .FreeLibrary dll => if dll ≠ 0 ∧ held = some dll then some none else none
  | _ => some held

/-- The release ledger run over a trace from the record `held`: the record
after the trace, or `none` when some release of the trace was refused. -/
def ledger : Option HMODULE → List Event → Option (Option HMODULE)
  | held, [] => some held
  | held, e :: trace =>
    match ledgerStep held e with
    | none => none
    | some held1 => ledger held1 trace

/-- The invariant behind the safety of releases: the ledger accepts the log,
its record is the handle of the table when that is non-null and empty
otherwise, and a non-null handle comes with the flag set. -/
def ReleaseInv (s : Globals) : Prop :=
  ledger none s.log
      = some (if s.ECLib.hECLibDll ≠ 0 then some s.ECLib.hECLibDll else none) ∧
  (s.ECLib.hECLibDll ≠ 0 → s.initialized = true)

/-! ## Sample libraries -/

/-- A conformant library: every path loads to the handle `7` and every symbol
resolves to a non-null address. -/
def fullLib : Win32 :=
  { LoadLibrary := fun _ => 7, GetProcAddress := fun _ nm => 1000 + nm.length }

/-- A second conformant library, loaded to the handle `9`. -/
def otherLib : Win32 :=
  { LoadLibrary := fun _ => 9, GetProcAddress := fun _ nm => 2000 + nm.length }

/-- A library that loads to the handle `8` and exports every required symbol
but `BL_LoadFlash`. -/
def partialLib : Win32 :=
  { LoadLibrary := fun _ => 8,
    GetProcAddress := fun _ nm => if nm = "BL_LoadFlash" then 0 else 500 + nm.length }

/-- No library: every load fails. -/
def noLib : Win32 :=
  { LoadLibrary := fun _ => 0, GetProcAddress := fun _ _ => 0 }

/-- The state after a successful `BL_Init` with `fullLib` from program start. -/
def readyState : Globals :=
  (BL_Init fullLib "ECLib.dll" TablePtr.null Globals.initial).2.2

/-- The caller's table reference after that successful `BL_Init`. -/
def readyRef : TablePtr :=
  (BL_Init fullLib "ECLib.dll" TablePtr.null Globals.initial).2.1

/-! ## The symbol-resolution loop -/

theorem lor_status_eq_zero (a b : Nat) (hb : b = 0 ∨ b = 1) :
    a ||| b = 0 ↔ a = 0 ∧ b = 0 := by
  rcases hb with rfl | rfl
  · simp
  · constructor
    · intro h
      have h0 := congrArg (fun n => Nat.testBit n 0) h
      simp at h0
    · rintro ⟨_, h1⟩
      exact absurd h1 (by decide)

theorem GET_PROC_loaded (os : Win32) (f : Field) (s : Globals) (h : s.ECLib.hECLibDll ≠ 0) :
    GET_PROC os f s =
      ((if os.GetProcAddress s.ECLib.hECLibDll f.name = 0 then 1 else 0),
        { s with
            ECLib := s.ECLib.store f (os.GetProcAddress s.ECLib.hECLibDll f.name),
            log := s.log ++ procEvents os s.ECLib.hECLibDll f }) := by
  unfold GET_PROC BL_getProcFor procEvents
  by_cases h0 : os.GetProcAddress s.ECLib.hECLibDll f.name = 0
  · simp [h, h0]
  · simp [h, h0]

theorem getProcs_spec (os : Win32) (l : List Field) :
    ∀ (e : BOOL) (s : Globals), s.ECLib.hECLibDll ≠ 0 →
      (getProcs os l (e, s)).2.initialized = s.initialized ∧
      (getProcs os l (e, s)).2.ECLib.hECLibDll = s.ECLib.hECLibDll ∧
      (getProcs os l (e, s)).2.log = s.log ++ l.flatMap (procEvents os s.ECLib.hECLibDll) ∧
      (∀ f, f ∈ l → (getProcs os l (e, s)).2.ECLib.proc f
          = os.GetProcAddress s.ECLib.hECLibDll f.name) ∧
      (∀ f, f ∉ l → (getProcs os l (e, s)).2.ECLib.proc f = s.ECLib.proc f) ∧
      ((getProcs os l (e, s)).1 = 0 ↔
          e = 0 ∧ ∀ f, f ∈ l → os.GetProcAddress s.ECLib.hECLibDll f.name ≠ 0) := by
  induction l with
  | nil => intro e s _; simp [getProcs]
  | cons a l ih =>
    intro e s h
    have hstep : getProcs os (a :: l) (e, s) = getProcs os l (getProcStep os (e, s) a) := by
      simp [getProcs]
    rw [hstep]
    simp only [getProcStep, GET_PROC_loaded os a s h]
    have ih2 := ih (e ||| (if os.GetProcAddress s.ECLib.hECLibDll a.name = 0 then 1 else 0))
      { s with
          ECLib := s.ECLib.store a (os.GetProcAddress s.ECLib.hECLibDll a.name),
          log := s.log ++ procEvents os s.ECLib.hECLibDll a } h
    obtain ⟨i1, i2, i3, i4, i5, i6⟩ := ih2
    refine ⟨i1, i2, ?_, ?_, ?_, ?_⟩
    · rw [i3]; simp [TEClibFunctions.store, List.flatMap_cons, List.append_assoc]
    · intro f hf
      by_cases hfl : f ∈ l
      · rw [i4 f hfl]; simp [TEClibFunctions.store]
      · rw [i5 f hfl]
        have hfa : f = a := by
          rcases List.mem_cons.mp hf with h1 | h1
          · exact h1
          · exact absurd h1 hfl
        simp [TEClibFunctions.store, hfa]
    · intro f hf
      have hfl : f ∉ l := fun h1 => hf (List.mem_cons_of_mem _ h1)
      have hfa : f ≠ a := fun h1 => hf (by simp [h1])
      rw [i5 f hfl]
      simp [TEClibFunctions.store, hfa]
    · rw [i6]
      have hb : (if os.GetProcAddress s.ECLib.hECLibDll a.name = 0 then (1 : Nat) else 0) = 0 ∨
          (if os.GetProcAddress s.ECLib.hECLibDll a.name = 0 then (1 : Nat) else 0) = 1 := by
        split <;> simp
      rw [lor_status_eq_zero _ _ hb]
      simp only [TEClibFunctions.store]
      by_cases h0 : os.GetProcAddress s.ECLib.hECLibDll a.name = 0
      · simp [h0]
      · simp [h0]

/-! ## The table of names -/

theorem mem_procedures (f : Field) : f ∈ procedures := by
  cases f <;> simp [procedures]

theorem procedures_length : procedures.length = 32 := by
  simp [procedures]

theorem procedures_nodup : procedures.Nodup := by
  decide

theorem procedure_names_nodup : (procedures.map Field.name).Nodup := by
  simp [procedures, Field.name]

/-! ## `BL_End` and `BL_Init`, case by case -/

theorem BL_End_eq (s : Globals) :
    BL_End s = (ERR_NOERROR,
      { initialized := false, ECLib := TEClibFunctions.zero, log := s.log ++ freeEvents s }) := by
  unfold BL_End freeEvents
  by_cases h : s.initialized = true ∧ s.ECLib.hECLibDll ≠ 0
  · simp only [if_pos h]
  · simp only [if_neg h, List.append_nil]

theorem BL_Init_empty (os : Win32) (eclibPath : String) (functions : TablePtr) (s : Globals)
    (hp : eclibPath.isEmpty = true) :
    BL_Init os eclibPath functions s = (ERR_GEN_INVALIDPARAMETERS, functions, s) := by
  simp [BL_Init, hp]

/-- The globals right after the `LoadLibrary` of a `BL_Init` with a non-empty
path: the table was cleared by `BL_End` and now holds the returned handle. -/
theorem BL_Init_nonempty (os : Win32) (eclibPath : String) (functions : TablePtr)
    (s : Globals) (hp : eclibPath.isEmpty = false) (s1 : Globals)
    (hs1 : s1 = { initialized := false,
                  ECLib := { hECLibDll := os.LoadLibrary eclibPath, proc := fun _ => 0 },
                  log := s.log ++ freeEvents s
                    ++ [Event.LoadLibrary eclibPath (os.LoadLibrary eclibPath)] }) :
    BL_Init os eclibPath functions s =
      if os.LoadLibrary eclibPath ≠ 0 then
        if (getProcs os procedures (0, s1)).1 ≠ 0 then
          (ERR_GEN_FUNCTIONFAILED, functions,
            { initialized := true, ECLib := (getProcs os procedures (0, s1)).2.ECLib,
              log := (getProcs os procedures (0, s1)).2.log ++ [Event.printf abortFormat []] })
        else
          (ERR_NOERROR, TablePtr.ECLib,
            { initialized := true, ECLib := (getProcs os procedures (0, s1)).2.ECLib,
              log := (getProcs os procedures (0, s1)).2.log ++ [Event.assignFunctions] })
      else
        (ERR_GEN_FUNCTIONFAILED, functions, { s1 with initialized := true }) := by
  subst hs1
  unfold BL_Init
  rw [BL_End_eq]
  generalize procedures = l
  simp only [hp, Bool.false_eq_true, if_false, TEClibFunctions.zero]
  split
  · split <;> rfl
  · rfl

theorem table_ext (t u : TEClibFunctions) (h1 : t.hECLibDll = u.hECLibDll)
    (h2 : ∀ f, t.proc f = u.proc f) : t = u := by
  cases t; cases u
  simp only [TEClibFunctions.mk.injEq]
  exact ⟨h1, funext h2⟩

/-- What the 32 resolutions of a `BL_Init` on a loaded library leave behind. -/
theorem getProcs_loaded (os : Win32) (eclibPath : String) (s : Globals)
    (hl : os.LoadLibrary eclibPath ≠ 0) (s1 : Globals)
    (hs1 : s1 = { initialized := false,
                  ECLib := { hECLibDll := os.LoadLibrary eclibPath, proc := fun _ => 0 },
                  log := s.log ++ freeEvents s
                    ++ [Event.LoadLibrary eclibPath (os.LoadLibrary eclibPath)] }) :
    (getProcs os procedures (0, s1)).2.ECLib = boundTable os eclibPath ∧
    (getProcs os procedures (0, s1)).2.log = s.log ++ loadedEvents os eclibPath s ∧
    ((getProcs os procedures (0, s1)).1 = 0 ↔ allResolve os eclibPath) := by
  have hh : s1.ECLib.hECLibDll = os.LoadLibrary eclibPath := by rw [hs1]
  have hlog : s1.log = s.log ++ freeEvents s
      ++ [Event.LoadLibrary eclibPath (os.LoadLibrary eclibPath)] := by rw [hs1]
  have h1 : s1.ECLib.hECLibDll ≠ 0 := by rw [hh]; exact hl
  obtain ⟨_, g2, g3, g4, _, g6⟩ := getProcs_spec os procedures 0 s1 h1
  refine ⟨?_, ?_, ?_⟩
  · apply table_ext
    · rw [g2, hh]; rfl
    · intro f
      rw [g4 f (mem_procedures f), hh]; rfl
  · rw [g3, hh, hlog]
    simp only [loadedEvents, List.append_assoc]
  · rw [g6, hh]
    simp only [true_and, allResolve]

theorem BL_Init_ok (os : Win32) (eclibPath : String) (functions : TablePtr)
    (s : Globals) (hp : eclibPath.isEmpty = false) (hl : os.LoadLibrary eclibPath ≠ 0)
    (ha : allResolve os eclibPath) :
    BL_Init os eclibPath functions s =
      (ERR_NOERROR, TablePtr.ECLib,
        { initialized := true, ECLib := boundTable os eclibPath,
          log := s.log ++ loadedEvents os eclibPath s ++ [Event.assignFunctions] }) := by
  obtain ⟨g1, g2, g3⟩ := getProcs_loaded os eclibPath s hl _ rfl
  rw [BL_Init_nonempty os eclibPath functions s hp _ rfl, if_pos hl, g1, g2,
    if_neg (not_not.mpr (g3.mpr ha))]

theorem BL_Init_missing (os : Win32) (eclibPath : String) (functions : TablePtr)
    (s : Globals) (hp : eclibPath.isEmpty = false) (hl : os.LoadLibrary eclibPath ≠ 0)
    (ha : ¬ allResolve os eclibPath) :
    BL_Init os eclibPath functions s =
      (ERR_GEN_FUNCTIONFAILED, functions,
        { initialized := true, ECLib := boundTable os eclibPath,
          log := s.log ++ loadedEvents os eclibPath s ++ [Event.printf abortFormat []] }) := by
  obtain ⟨g1, g2, g3⟩ := getProcs_loaded os eclibPath s hl _ rfl
  rw [BL_Init_nonempty os eclibPath functions s hp _ rfl, if_pos hl, g1, g2,
    if_pos (fun h => ha (g3.mp h))]

theorem BL_Init_loadFails (os : Win32) (eclibPath : String) (functions : TablePtr)
    (s : Globals) (hp : eclibPath.isEmpty = false) (hl : os.LoadLibrary eclibPath = 0) :
    BL_Init os eclibPath functions s =
      (ERR_GEN_FUNCTIONFAILED, functions,
        { initialized := true, ECLib := TEClibFunctions.zero,
          log := s.log ++ freeEvents s ++ [Event.LoadLibrary eclibPath 0] }) := by
  rw [BL_Init_nonempty os eclibPath functions s hp _ rfl, if_neg (not_not.mpr hl), hl]
  rfl

/-! ## Events of one call -/

theorem emitted_of_log (s t : Globals) (ev : List Event) (h : t.log = s.log ++ ev) :
    emitted s t = ev := by
  unfold emitted
  rw [h, List.drop_left]

theorem emitted_self (s : Globals) : emitted s s = [] := by
  simp [emitted]

theorem allResolve_iff_names (os : Win32) (eclibPath : String) :
    allResolve os eclibPath ↔
      ∀ nm, nm ∈ symbolNames → os.GetProcAddress (os.LoadLibrary eclibPath) nm ≠ 0 := by
  simp [allResolve, symbolNames]

theorem procEvents_no_load_free_assign (os : Win32) (dll : HMODULE) (l : List Field) :
    ∀ e, e ∈ l.flatMap (procEvents os dll) →
      e.isLoad = false ∧ e.isFree = false ∧ e.isAssign = false ∧ e.delta = 0 := by
  intro e he
  rw [List.mem_flatMap] at he
  obtain ⟨f, _, hf⟩ := he
  unfold procEvents at hf
  split at hf
  · simp only [List.mem_cons, List.mem_singleton, List.not_mem_nil, or_false] at hf
    rcases hf with rfl | rfl <;> simp [Event.isLoad, Event.isFree, Event.isAssign, Event.delta]
  · simp only [List.mem_cons, List.not_mem_nil, or_false] at hf
    subst hf
    simp [Event.isLoad, Event.isFree, Event.isAssign, Event.delta]

theorem freeEvents_cases (s : Globals) :
    freeEvents s = [] ∨ freeEvents s = [Event.FreeLibrary s.ECLib.hECLibDll] := by
  unfold freeEvents
  split
  · exact Or.inr rfl
  · exact Or.inl rfl

/-! ## Claims on the status and the effects of `BL_Init` -/

/-- C1: for every prior state, `BL_Init` returns `ERR_GEN_INVALIDPARAMETERS`
exactly when the path is empty; for a non-empty path it returns `ERR_NOERROR`
if and only if the load succeeds (non-null handle) and every one of the 32
fixed symbol names resolves to a non-null address in the loaded library, and
`ERR_GEN_FUNCTIONFAILED` in every other case; the result is always one of
these three codes. -/
theorem BL_Init_status (os : Win32) (eclibPath : String) (functions : TablePtr)
    (s : Globals) :
    symbolNames.length = 32 ∧
    ((BL_Init os eclibPath functions s).1 = ERR_GEN_INVALIDPARAMETERS
        ↔ eclibPath.isEmpty = true) ∧
    (eclibPath.isEmpty = false →
      ((BL_Init os eclibPath functions s).1 = ERR_NOERROR ↔
        (os.LoadLibrary eclibPath ≠ 0 ∧
          ∀ nm, nm ∈ symbolNames →
            os.GetProcAddress (os.LoadLibrary eclibPath) nm ≠ 0)) ∧
      ((BL_Init os eclibPath functions s).1 ≠ ERR_NOERROR →
        (BL_Init os eclibPath functions s).1 = ERR_GEN_FUNCTIONFAILED)) ∧
    ((BL_Init os eclibPath functions s).1 = ERR_NOERROR ∨
      (BL_Init os eclibPath functions s).1 = ERR_GEN_INVALIDPARAMETERS ∨
      (BL_Init os eclibPath functions s).1 = ERR_GEN_FUNCTIONFAILED) := by
  refine ⟨by simp [symbolNames, procedures], ?_⟩
  rw [← allResolve_iff_names]
  cases hp : eclibPath.isEmpty
  · by_cases hl : os.LoadLibrary eclibPath = 0
    · rw [BL_Init_loadFails os eclibPath functions s hp hl]
      simp [hl]
    · by_cases ha : allResolve os eclibPath
      · rw [BL_Init_ok os eclibPath functions s hp hl ha]
        simp [hl, ha]
      · rw [BL_Init_missing os eclibPath functions s hp hl ha]
        simp [hl, ha]
  · rw [BL_Init_empty os eclibPath functions s hp]
    simp

/-- C2: for every prior state and every non-empty path to a library that loads
and exports all 32 symbols, `BL_Init` returns `ERR_NOERROR`, the caller's table
reference points at the global table, the table's handle is the handle the
`LoadLibrary` call of this `BL_Init` returned, and every function-pointer field
of the structure is non-null and holds the address the `GetProcAddress` call of
this `BL_Init` resolved from that handle for the field's own name. -/
theorem BL_Init_success_binds_table (os : Win32) (eclibPath : String)
    (functions : TablePtr) (s : Globals)
    (hp : eclibPath.isEmpty = false) (hl : os.LoadLibrary eclibPath ≠ 0)
    (ha : ∀ nm, nm ∈ symbolNames → os.GetProcAddress (os.LoadLibrary eclibPath) nm ≠ 0) :
    (BL_Init os eclibPath functions s).1 = ERR_NOERROR ∧
    (BL_Init os eclibPath functions s).2.1 = TablePtr.ECLib ∧
    Event.assignFunctions ∈ emitted s (BL_Init os eclibPath functions s).2.2 ∧
    (BL_Init os eclibPath functions s).2.2.ECLib.hECLibDll = os.LoadLibrary eclibPath ∧
    Event.LoadLibrary eclibPath (BL_Init os eclibPath functions s).2.2.ECLib.hECLibDll
      ∈ emitted s (BL_Init os eclibPath functions s).2.2 ∧
    ∀ f : Field,
      (BL_Init os eclibPath functions s).2.2.ECLib.proc f ≠ 0 ∧
      (BL_Init os eclibPath functions s).2.2.ECLib.proc f
        = os.GetProcAddress (BL_Init os eclibPath functions s).2.2.ECLib.hECLibDll f.name ∧
      Event.GetProcAddress (BL_Init os eclibPath functions s).2.2.ECLib.hECLibDll f.name
          ((BL_Init os eclibPath functions s).2.2.ECLib.proc f)
        ∈ emitted s (BL_Init os eclibPath functions s).2.2 := by
  have ha2 : allResolve os eclibPath := (allResolve_iff_names os eclibPath).mpr ha
  rw [BL_Init_ok os eclibPath functions s hp hl ha2]
  rw [emitted_of_log s _ (loadedEvents os eclibPath s ++ [Event.assignFunctions])
    (by simp only [List.append_assoc])]
  refine ⟨rfl, rfl, by simp, rfl, by simp [loadedEvents, boundTable], ?_⟩
  intro f
  refine ⟨ha2 f (mem_procedures f), rfl, ?_⟩
  simp only [loadedEvents, boundTable, List.mem_append, List.mem_flatMap]
  refine Or.inl (Or.inr ⟨f, mem_procedures f, ?_⟩)
  simp [procEvents]

/-- C3: for every prior state, `BL_Init` called with an empty path returns
`ERR_GEN_INVALIDPARAMETERS` and does nothing else: it makes no call at all (no
`LoadLibrary`, no `GetProcAddress`, no `FreeLibrary`), does not assign the
caller's table reference, which keeps its value, and leaves the globals as they
were. -/
theorem BL_Init_empty_path (os : Win32) (eclibPath : String) (functions : TablePtr)
    (s : Globals) (hp : eclibPath.isEmpty = true) :
    (BL_Init os eclibPath functions s).1 = ERR_GEN_INVALIDPARAMETERS ∧
    emitted s (BL_Init os eclibPath functions s).2.2 = [] ∧
    (∀ e, e ∈ emitted s (BL_Init os eclibPath functions s).2.2 →
      e.isLoad = false ∧ e.isResolve = false ∧ e.isAssign = false) ∧
    (BL_Init os eclibPath functions s).2.1 = functions ∧
    (BL_Init os eclibPath functions s).2.2 = s := by
  rw [BL_Init_empty os eclibPath functions s hp]
  simp [emitted_self]

/-- The status characterisation at three concrete calls from the initial
state: a conformant library, a library lacking `BL_LoadFlash`, a failing load. -/
theorem BL_Init_status_witness :
    (BL_Init fullLib "ECLib.dll" TablePtr.null Globals.initial).1 = ERR_NOERROR ∧
    (BL_Init partialLib "ECLib.dll" TablePtr.null Globals.initial).1
      = ERR_GEN_FUNCTIONFAILED ∧
    (BL_Init noLib "ECLib.dll" TablePtr.null Globals.initial).1 = ERR_GEN_FUNCTIONFAILED :=
  have hfull := (BL_Init_status fullLib "ECLib.dll" TablePtr.null Globals.initial).2.2.1
    (by decide)
  have hpart := (BL_Init_status partialLib "ECLib.dll" TablePtr.null Globals.initial).2.2.1
    (by decide)
  have hno := (BL_Init_status noLib "ECLib.dll" TablePtr.null Globals.initial).2.2.1
    (by decide)
  ⟨hfull.1.mpr ⟨by decide, by intro nm _; simp [fullLib]⟩,
    hpart.2 (fun h => (hpart.1.mp h).2 "BL_LoadFlash"
      (by simp [symbolNames, procedures, Field.name]) (by simp [partialLib])),
    hno.2 (fun h => (hno.1.mp h).1 (by decide))⟩

/-- The successful binding at the conformant sample library, from the initial
state. -/
theorem BL_Init_success_binds_table_witness :
    "ECLib.dll".isEmpty = false ∧ fullLib.LoadLibrary "ECLib.dll" ≠ 0 ∧
    (BL_Init fullLib "ECLib.dll" TablePtr.null Globals.initial).1 = ERR_NOERROR ∧
    (BL_Init fullLib "ECLib.dll" TablePtr.null Globals.initial).2.1 = TablePtr.ECLib ∧
    (BL_Init fullLib "ECLib.dll" TablePtr.null Globals.initial).2.2.ECLib.hECLibDll = 7 :=
  have h := BL_Init_success_binds_table fullLib "ECLib.dll" TablePtr.null Globals.initial
    (by decide) (by decide) (by intro nm _; simp [fullLib])
  ⟨by decide, by decide, h.1, h.2.1, h.2.2.2.1⟩

/-- The empty path at the initial state. -/
theorem BL_Init_empty_path_witness :
    "".isEmpty = true ∧
    (BL_Init fullLib "" TablePtr.null Globals.initial).1 = ERR_GEN_INVALIDPARAMETERS ∧
    emitted Globals.initial (BL_Init fullLib "" TablePtr.null Globals.initial).2.2 = [] ∧
    (BL_Init fullLib "" TablePtr.null Globals.initial).2.1 = TablePtr.null :=
  have h := BL_Init_empty_path fullLib "" TablePtr.null Globals.initial (by decide)
  ⟨by decide, h.1, h.2.1, h.2.2.2.1⟩

/-! ## A library that lacks a symbol -/

theorem fullLib_ready :
    BL_Init fullLib "ECLib.dll" TablePtr.null Globals.initial =
      (ERR_NOERROR, TablePtr.ECLib,
        { initialized := true, ECLib := boundTable fullLib "ECLib.dll",
          log := Globals.initial.log ++ loadedEvents fullLib "ECLib.dll" Globals.initial
            ++ [Event.assignFunctions] }) :=
  BL_Init_ok fullLib "ECLib.dll" TablePtr.null Globals.initial (by decide) (by decide)
    (by intro f _; simp [fullLib])

theorem readyRef_eq : readyRef = TablePtr.ECLib := by
  unfold readyRef
  rw [fullLib_ready]

theorem partialLib_lacks : ¬ allResolve partialLib "ECLib.dll" := by
  intro h
  exact h Field.BL_LoadFlash (mem_procedures _) (by simp [partialLib, Field.name])

/-- C4, counterexample: the caller's reference was set by an earlier successful
`BL_Init` (conformant library); a second `BL_Init` with a library that loads
but lacks `BL_LoadFlash` returns `ERR_GEN_FUNCTIONFAILED`, and the reference
the caller holds afterwards still points at the global table, whose entry
`BL_Connect` is non-null. -/
theorem stale_reference_exposes_partial_table :
    "ECLib.dll".isEmpty = false ∧
    partialLib.LoadLibrary "ECLib.dll" ≠ 0 ∧
    (∃ nm, nm ∈ symbolNames ∧
      partialLib.GetProcAddress (partialLib.LoadLibrary "ECLib.dll") nm = 0) ∧
    (BL_Init fullLib "ECLib.dll" TablePtr.null Globals.initial).1 = ERR_NOERROR ∧
    (BL_Init partialLib "ECLib.dll" readyRef readyState).1 = ERR_GEN_FUNCTIONFAILED ∧
    (BL_Init partialLib "ECLib.dll" readyRef readyState).2.2.ECLib.proc Field.BL_Connect
      = 510 ∧
    exposesLiveEntry (BL_Init partialLib "ECLib.dll" readyRef readyState).2.1
      (BL_Init partialLib "ECLib.dll" readyRef readyState).2.2 := by
  rw [BL_Init_missing partialLib "ECLib.dll" readyRef readyState (by decide) (by decide)
    partialLib_lacks, fullLib_ready, readyRef_eq]
  refine ⟨by decide, by decide, ⟨"BL_LoadFlash", ?_, ?_⟩, rfl, rfl, ?_, rfl, ?_⟩
  · simp [symbolNames, procedures, Field.name]
  · simp [partialLib]
  · decide
  · exact ⟨Field.BL_Connect, by simp [boundTable, partialLib, Field.name]⟩

/-- C4, amended: for every prior state and every non-empty path to a library
that loads but lacks at least one of the 32 required symbols, `BL_Init` returns
`ERR_GEN_FUNCTIONFAILED` and does not assign the caller's table reference,
which keeps the value it had before the call.  A reference that was null
exposes no live entry point.  The global table holds, in every field, the
address resolved for the field's own name (null for the missing symbols), so a
reference that pointed at the global table before the call leads to a non-null
function pointer exactly when the library exports at least one of the symbols. -/
theorem BL_Init_missing_symbol (os : Win32) (eclibPath : String) (functions : TablePtr)
    (s : Globals) (hp : eclibPath.isEmpty = false) (hl : os.LoadLibrary eclibPath ≠ 0)
    (hm : ∃ nm, nm ∈ symbolNames ∧ os.GetProcAddress (os.LoadLibrary eclibPath) nm = 0) :
    (BL_Init os eclibPath functions s).1 = ERR_GEN_FUNCTIONFAILED ∧
    (BL_Init os eclibPath functions s).2.1 = functions ∧
    (∀ e, e ∈ emitted s (BL_Init os eclibPath functions s).2.2 → e.isAssign = false) ∧
    (functions = TablePtr.null →
      ¬ exposesLiveEntry (BL_Init os eclibPath functions s).2.1
          (BL_Init os eclibPath functions s).2.2) ∧
    (∀ f : Field, (BL_Init os eclibPath functions s).2.2.ECLib.proc f
        = os.GetProcAddress (os.LoadLibrary eclibPath) f.name) ∧
    (functions = TablePtr.ECLib →
      (exposesLiveEntry (BL_Init os eclibPath functions s).2.1
          (BL_Init os eclibPath functions s).2.2 ↔
        ∃ nm, nm ∈ symbolNames ∧
          os.GetProcAddress (os.LoadLibrary eclibPath) nm ≠ 0)) := by
  have ha : ¬ allResolve os eclibPath := by
    rw [allResolve_iff_names]
    obtain ⟨nm, h1, h2⟩ := hm
    exact fun h => h nm h1 h2
  rw [BL_Init_missing os eclibPath functions s hp hl ha]
  rw [emitted_of_log s _ (loadedEvents os eclibPath s ++ [Event.printf abortFormat []])
    (by simp only [List.append_assoc])]
  refine ⟨rfl, rfl, ?_, ?_, fun _ => rfl, ?_⟩
  · intro e he
    simp only [loadedEvents, List.mem_append, List.mem_singleton] at he
    rcases he with ((he | he) | he) | he
    · rcases freeEvents_cases s with h0 | h0
      · rw [h0] at he; simp at he
      · rw [h0] at he
        simp only [List.mem_singleton] at he
        subst he; rfl
    · subst he; rfl
    · exact (procEvents_no_load_free_assign os _ procedures e he).2.2.1
    · subst he; rfl
  · intro hn he
    rw [hn] at he
    have h1 : TablePtr.null = TablePtr.ECLib := he.1
    cases h1
  · intro hf
    simp only [exposesLiveEntry, hf, true_and, boundTable, symbolNames, List.mem_map]
    constructor
    · rintro ⟨f, h1⟩
      exact ⟨f.name, ⟨f, mem_procedures f, rfl⟩, h1⟩
    · rintro ⟨nm, ⟨f, _, rfl⟩, h1⟩
      exact ⟨f, h1⟩

/-- The library lacking `BL_LoadFlash`, with a null reference, from the initial
state. -/
theorem BL_Init_missing_symbol_witness :
    "ECLib.dll".isEmpty = false ∧ partialLib.LoadLibrary "ECLib.dll" ≠ 0 ∧
    (BL_Init partialLib "ECLib.dll" TablePtr.null Globals.initial).1
      = ERR_GEN_FUNCTIONFAILED ∧
    (BL_Init partialLib "ECLib.dll" TablePtr.null Globals.initial).2.1 = TablePtr.null :=
  have h := BL_Init_missing_symbol partialLib "ECLib.dll" TablePtr.null Globals.initial
    (by decide) (by decide)
    ⟨"BL_LoadFlash", by simp [symbolNames, procedures, Field.name], by simp [partialLib]⟩
  ⟨by decide, by decide, h.1, h.2.1⟩

/-! ## Resolution attempts and diagnostics -/

theorem freeEvents_filters (s : Globals) :
    (freeEvents s).filter Event.isResolve = [] ∧
    (freeEvents s).filterMap Event.resolvedName = [] ∧
    (freeEvents s).filterMap Event.notFoundName = [] := by
  rcases freeEvents_cases s with h | h <;> rw [h] <;>
    simp [Event.isResolve, Event.resolvedName, Event.notFoundName]

theorem procEvents_filters (os : Win32) (dll : HMODULE) (l : List Field) :
    (l.flatMap (procEvents os dll)).filter Event.isResolve
      = (l.map Field.name).map
          (fun nm => Event.GetProcAddress dll nm (os.GetProcAddress dll nm)) ∧
    (l.flatMap (procEvents os dll)).filterMap Event.resolvedName = l.map Field.name ∧
    (l.flatMap (procEvents os dll)).filterMap Event.notFoundName
      = (l.map Field.name).filter (fun nm => decide (os.GetProcAddress dll nm = 0)) := by
  induction l with
  | nil => simp
  | cons a l ih =>
    obtain ⟨i1, i2, i3⟩ := ih
    simp only [List.flatMap_cons, List.filter_append, List.filterMap_append, i1, i2, i3,
      List.map_cons]
    by_cases h0 : os.GetProcAddress dll a.name = 0
    · simp [procEvents, h0, Event.isResolve, Event.resolvedName, Event.notFoundName]
    · simp [procEvents, h0, Event.isResolve, Event.resolvedName, Event.notFoundName]

/-- C5: for every library that loads (non-empty path, non-null handle),
`BL_Init` calls `GetProcAddress` on the loaded handle for the 32 symbol names,
exactly once each and in table order, whatever the earlier calls returned; the
"could not find the procedure" messages it prints name exactly the symbols
whose resolution returned null, once each and in table order, so a name is
reported if and only if it is one of the 32 names and failed to resolve. -/
theorem BL_Init_attempts_every_symbol (os : Win32) (eclibPath : String)
    (functions : TablePtr) (s : Globals)
    (hp : eclibPath.isEmpty = false) (hl : os.LoadLibrary eclibPath ≠ 0) :
    symbolNames.length = 32 ∧ symbolNames.Nodup ∧
    (emitted s (BL_Init os eclibPath functions s).2.2).filter Event.isResolve
      = symbolNames.map (fun nm =>
          Event.GetProcAddress (os.LoadLibrary eclibPath) nm
            (os.GetProcAddress (os.LoadLibrary eclibPath) nm)) ∧
    (emitted s (BL_Init os eclibPath functions s).2.2).filterMap Event.resolvedName
      = symbolNames ∧
    (emitted s (BL_Init os eclibPath functions s).2.2).filterMap Event.notFoundName
      = symbolNames.filter
          (fun nm => decide (os.GetProcAddress (os.LoadLibrary eclibPath) nm = 0)) ∧
    (∀ nm,
      nm ∈ (emitted s (BL_Init os eclibPath functions s).2.2).filterMap Event.notFoundName
        ↔ nm ∈ symbolNames ∧ os.GetProcAddress (os.LoadLibrary eclibPath) nm = 0) := by
  obtain ⟨f1, f2, f3⟩ := freeEvents_filters s
  obtain ⟨p1, p2, p3⟩ := procEvents_filters os (os.LoadLibrary eclibPath) procedures
  have key : ∀ last : Event, last.isResolve = false → last.resolvedName = none →
      last.notFoundName = none →
      (loadedEvents os eclibPath s ++ [last]).filter Event.isResolve
        = symbolNames.map (fun nm =>
            Event.GetProcAddress (os.LoadLibrary eclibPath) nm
              (os.GetProcAddress (os.LoadLibrary eclibPath) nm)) ∧
      (loadedEvents os eclibPath s ++ [last]).filterMap Event.resolvedName = symbolNames ∧
      (loadedEvents os eclibPath s ++ [last]).filterMap Event.notFoundName
        = symbolNames.filter
            (fun nm => decide (os.GetProcAddress (os.LoadLibrary eclibPath) nm = 0)) := by
    intro last l1 l2 l3
    have e1 : [last].filter Event.isResolve = [] := by simp [l1]
    have e2 : [last].filterMap Event.resolvedName = [] := by simp [l2]
    have e3 : [last].filterMap Event.notFoundName = [] := by simp [l3]
    have q1 : [Event.LoadLibrary eclibPath (os.LoadLibrary eclibPath)].filter Event.isResolve
        = [] := rfl
    have q2 : [Event.LoadLibrary eclibPath (os.LoadLibrary eclibPath)].filterMap
        Event.resolvedName = [] := rfl
    have q3 : [Event.LoadLibrary eclibPath (os.LoadLibrary eclibPath)].filterMap
        Event.notFoundName = [] := rfl
    simp only [loadedEvents, List.filter_append, List.filterMap_append, f1, f2, f3, p1, p2, p3,
      e1, e2, e3, q1, q2, q3, symbolNames, List.nil_append, List.append_nil, and_self]
  have hev : ∃ last : Event, last.isResolve = false ∧ last.resolvedName = none ∧
      last.notFoundName = none ∧
      emitted s (BL_Init os eclibPath functions s).2.2
        = loadedEvents os eclibPath s ++ [last] := by
    by_cases ha : allResolve os eclibPath
    · refine ⟨Event.assignFunctions, rfl, rfl, rfl, ?_⟩
      rw [BL_Init_ok os eclibPath functions s hp hl ha]
      exact emitted_of_log s _ _ (by simp only [List.append_assoc])
    · refine ⟨Event.printf abortFormat [], rfl, rfl, rfl, ?_⟩
      rw [BL_Init_missing os eclibPath functions s hp hl ha]
      exact emitted_of_log s _ _ (by simp only [List.append_assoc])
  obtain ⟨last, l1, l2, l3, hev⟩ := hev
  obtain ⟨k1, k2, k3⟩ := key last l1 l2 l3
  rw [hev]
  refine ⟨by simp [symbolNames, procedures], procedure_names_nodup, k1, k2, k3, ?_⟩
  intro nm
  rw [k3]
  simp [List.mem_filter]

/-- The library lacking `BL_LoadFlash`, from a ready state: all 32 names are
tried and the one message names `BL_LoadFlash`. -/
theorem BL_Init_attempts_every_symbol_witness :
    "ECLib.dll".isEmpty = false ∧ partialLib.LoadLibrary "ECLib.dll" ≠ 0 ∧
    (emitted readyState
        (BL_Init partialLib "ECLib.dll" readyRef readyState).2.2).filterMap
          Event.resolvedName = symbolNames ∧
    (emitted readyState
        (BL_Init partialLib "ECLib.dll" readyRef readyState).2.2).filterMap
          Event.notFoundName = ["BL_LoadFlash"] :=
  have h := BL_Init_attempts_every_symbol partialLib "ECLib.dll" readyRef readyState
    (by decide) (by decide)
  ⟨by decide, by decide, h.2.2.2.1,
    h.2.2.2.2.1.trans (by simp [symbolNames, procedures, Field.name, partialLib])⟩

/-- C6: for every prior state and every non-empty path whose library load
fails, `BL_Init` returns `ERR_GEN_FUNCTIONFAILED`; beyond the release made by
the leading `BL_End` it makes the one failed `LoadLibrary` call and nothing
else (no `GetProcAddress`, no assignment to the caller's table reference, which
keeps its value), and afterwards the global table has a null library handle
and every entry null. -/
theorem BL_Init_load_failure (os : Win32) (eclibPath : String) (functions : TablePtr)
    (s : Globals) (hp : eclibPath.isEmpty = false) (hl : os.LoadLibrary eclibPath = 0) :
    (BL_Init os eclibPath functions s).1 = ERR_GEN_FUNCTIONFAILED ∧
    emitted s (BL_Init os eclibPath functions s).2.2
      = freeEvents s ++ [Event.LoadLibrary eclibPath 0] ∧
    (∀ e, e ∈ emitted s (BL_Init os eclibPath functions s).2.2 →
      e.isResolve = false ∧ e.isAssign = false) ∧
    (BL_Init os eclibPath functions s).2.1 = functions ∧
    (BL_Init os eclibPath functions s).2.2.ECLib.hECLibDll = 0 ∧
    (∀ f : Field, (BL_Init os eclibPath functions s).2.2.ECLib.proc f = 0) := by
  rw [BL_Init_loadFails os eclibPath functions s hp hl]
  rw [emitted_of_log s _ (freeEvents s ++ [Event.LoadLibrary eclibPath 0])
    (by simp only [List.append_assoc])]
  refine ⟨rfl, rfl, ?_, rfl, rfl, fun _ => rfl⟩
  intro e he
  simp only [List.mem_append, List.mem_singleton] at he
  rcases he with he | he
  · rcases freeEvents_cases s with h0 | h0
    · rw [h0] at he; simp at he
    · rw [h0] at he
      simp only [List.mem_singleton] at he
      subst he
      exact ⟨rfl, rfl⟩
  · subst he
    exact ⟨rfl, rfl⟩

/-- The failing load, from a ready state. -/
theorem BL_Init_load_failure_witness :
    "ECLib.dll".isEmpty = false ∧ noLib.LoadLibrary "ECLib.dll" = 0 ∧
    (BL_Init noLib "ECLib.dll" readyRef readyState).1 = ERR_GEN_FUNCTIONFAILED ∧
    (BL_Init noLib "ECLib.dll" readyRef readyState).2.1 = readyRef ∧
    (BL_Init noLib "ECLib.dll" readyRef readyState).2.2.ECLib.hECLibDll = 0 :=
  have h := BL_Init_load_failure noLib "ECLib.dll" readyRef readyState (by decide) (by decide)
  ⟨by decide, by decide, h.1, h.2.2.2.1, h.2.2.2.2.1⟩

/-! ## Teardown -/

/-- C7: from every state, `BL_End` returns `ERR_NOERROR` and leaves the table
fully cleared: the library handle is null, each of the 32 entry points is null,
and the initialized flag is false. -/
theorem BL_End_clears (s : Globals) :
    (BL_End s).1 = ERR_NOERROR ∧
    (BL_End s).2.ECLib.hECLibDll = 0 ∧
    (∀ f : Field, (BL_End s).2.ECLib.proc f = 0) ∧
    (BL_End s).2.initialized = false := by
  rw [BL_End_eq]
  exact ⟨rfl, rfl, fun _ => rfl, rfl⟩

/-- C8: `BL_End` is idempotent: from every state, two calls in a row both
return `ERR_NOERROR`, the second call performs no effect at all (in particular
no `FreeLibrary` call) and leaves the state the first call produced; and
`BL_End` on the initial state returns `ERR_NOERROR` and changes nothing. -/
theorem BL_End_idempotent (s : Globals) :
    (BL_End s).1 = ERR_NOERROR ∧
    (BL_End (BL_End s).2).1 = ERR_NOERROR ∧
    emitted (BL_End s).2 (BL_End (BL_End s).2).2 = [] ∧
    (∀ e, e ∈ emitted (BL_End s).2 (BL_End (BL_End s).2).2 → e.isFree = false) ∧
    (BL_End (BL_End s).2).2 = (BL_End s).2 ∧
    BL_End Globals.initial = (ERR_NOERROR, Globals.initial) := by
  have h2 : BL_End (BL_End s).2 = (ERR_NOERROR, (BL_End s).2) := by
    rw [BL_End_eq s, BL_End_eq]
    simp [freeEvents]
  have h3 : BL_End Globals.initial = (ERR_NOERROR, Globals.initial) := by
    rw [BL_End_eq]
    simp [freeEvents, Globals.initial]
  rw [h2]
  refine ⟨by rw [BL_End_eq], rfl, emitted_self _, ?_, rfl, h3⟩
  rw [emitted_self]
  intro e he
  simp at he

/-! ## Loads and releases along a call sequence -/

theorem outstanding_append (a b : List Event) :
    outstanding (a ++ b) = outstanding a + outstanding b := by
  simp [outstanding]

theorem outstanding_neutral (b : List Event) (hb : ∀ e, e ∈ b → e.delta = 0) :
    outstanding b = 0 := by
  induction b with
  | nil => rfl
  | cons e b ih =>
    have h1 : e.delta = 0 := hb e (by simp)
    have h2 : outstanding b = 0 := ih (fun x hx => hb x (List.mem_cons_of_mem _ hx))
    have h3 : outstanding (e :: b) = e.delta + outstanding b := by simp [outstanding]
    rw [h3, h1, h2]; rfl

theorem atMostOneHeld_append (a b : List Event) (ha : AtMostOneHeld a)
    (hb : ∀ n, 0 ≤ outstanding a + outstanding (b.take n) ∧
      outstanding a + outstanding (b.take n) ≤ 1) :
    AtMostOneHeld (a ++ b) := by
  intro n
  rw [List.take_append_eq_append_take, outstanding_append]
  by_cases hn : n ≤ a.length
  · have h0 : n - a.length = 0 := by omega
    rw [h0]
    have := ha n
    simpa [outstanding] using this
  · have h1 : a.take n = a := List.take_of_length_le (by omega)
    rw [h1]
    exact hb (n - a.length)

theorem atMostOneHeld_snoc (a : List Event) (e : Event) (ha : AtMostOneHeld a)
    (he : 0 ≤ outstanding a + e.delta ∧ outstanding a + e.delta ≤ 1) :
    AtMostOneHeld (a ++ [e]) := by
  apply atMostOneHeld_append a [e] ha
  intro n
  have hfull := ha a.length
  rw [List.take_length] at hfull
  cases n with
  | zero => simpa [outstanding] using hfull
  | succ m => simpa [outstanding] using he

theorem atMostOneHeld_neutral (a b : List Event) (ha : AtMostOneHeld a)
    (hb : ∀ e, e ∈ b → e.delta = 0) :
    AtMostOneHeld (a ++ b) := by
  apply atMostOneHeld_append a b ha
  intro n
  have hfull := ha a.length
  rw [List.take_length] at hfull
  rw [outstanding_neutral (b.take n) (fun e he => hb e (List.mem_of_mem_take he))]
  simpa using hfull

theorem lifecycle_after_free (s : Globals) (hs : LifecycleInv s) :
    AtMostOneHeld (s.log ++ freeEvents s) ∧ outstanding (s.log ++ freeEvents s) = 0 := by
  obtain ⟨h1, h2, h3⟩ := hs
  unfold freeEvents
  by_cases hc : s.initialized = true ∧ s.ECLib.hECLibDll ≠ 0
  · rw [if_pos hc]
    rw [if_pos hc.2] at h2
    constructor
    · apply atMostOneHeld_snoc _ _ h1
      rw [h2]; simp [Event.delta]
    · rw [outstanding_append, h2]; simp [outstanding, Event.delta]
  · rw [if_neg hc, List.append_nil]
    have h0 : s.ECLib.hECLibDll = 0 := by
      by_contra hne
      exact hc ⟨h3 hne, hne⟩
    rw [if_neg (not_not.mpr h0)] at h2
    exact ⟨h1, h2⟩

theorem lifecycle_after_load (s : Globals) (hs : LifecycleInv s) (path : String)
    (h : HMODULE) (tail : List Event) (ht : ∀ e, e ∈ tail → e.delta = 0) :
    AtMostOneHeld (s.log ++ freeEvents s ++ [Event.LoadLibrary path h] ++ tail) ∧
    outstanding (s.log ++ freeEvents s ++ [Event.LoadLibrary path h] ++ tail)
      = (if h ≠ 0 then 1 else 0) := by
  obtain ⟨f1, f2⟩ := lifecycle_after_free s hs
  have hd : (Event.LoadLibrary path h).delta = (if h ≠ 0 then 1 else 0) := rfl
  have l2 : outstanding (s.log ++ freeEvents s ++ [Event.LoadLibrary path h])
      = (if h ≠ 0 then 1 else 0) := by
    rw [outstanding_append, f2]
    simp [outstanding, Event.delta]
  have l1 : AtMostOneHeld (s.log ++ freeEvents s ++ [Event.LoadLibrary path h]) := by
    apply atMostOneHeld_snoc _ _ f1
    rw [f2, hd]
    split <;> simp
  refine ⟨atMostOneHeld_neutral _ _ l1 ht, ?_⟩
  rw [outstanding_append, l2, outstanding_neutral tail ht, add_zero]

theorem lifecycle_BL_End (s : Globals) (hs : LifecycleInv s) : LifecycleInv (BL_End s).2 := by
  obtain ⟨f1, f2⟩ := lifecycle_after_free s hs
  rw [BL_End_eq]
  refine ⟨f1, ?_, ?_⟩
  · rw [f2]; simp [TEClibFunctions.zero]
  · intro h; exact absurd rfl h

theorem lifecycle_BL_Init (os : Win32) (eclibPath : String) (functions : TablePtr)
    (s : Globals) (hs : LifecycleInv s) :
    LifecycleInv (BL_Init os eclibPath functions s).2.2 := by
  cases hp : eclibPath.isEmpty
  · by_cases hl : os.LoadLibrary eclibPath = 0
    · rw [BL_Init_loadFails os eclibPath functions s hp hl]
      obtain ⟨g1, g2⟩ := lifecycle_after_load s hs eclibPath 0 [] (by simp)
      rw [List.append_nil] at g1 g2
      refine ⟨g1, ?_, ?_⟩
      · rw [g2]; simp [TEClibFunctions.zero]
      · intro _; rfl
    · have hn : ∀ last : Event, last.delta = 0 →
          ∀ e, e ∈ procedures.flatMap (procEvents os (os.LoadLibrary eclibPath)) ++ [last] →
            e.delta = 0 := by
        intro last hlast e he
        rcases List.mem_append.mp he with h1 | h1
        · exact (procEvents_no_load_free_assign os _ procedures e h1).2.2.2
        · simp only [List.mem_singleton] at h1
          rw [h1]; exact hlast
      have hlog : ∀ last : Event,
          s.log ++ loadedEvents os eclibPath s ++ [last]
            = s.log ++ freeEvents s
                ++ [Event.LoadLibrary eclibPath (os.LoadLibrary eclibPath)]
                ++ (procedures.flatMap (procEvents os (os.LoadLibrary eclibPath)) ++ [last]) := by
        intro last
        simp only [loadedEvents, List.append_assoc]
      by_cases ha : allResolve os eclibPath
      · rw [BL_Init_ok os eclibPath functions s hp hl ha]
        obtain ⟨g1, g2⟩ := lifecycle_after_load s hs eclibPath (os.LoadLibrary eclibPath) _
          (hn Event.assignFunctions rfl)
        rw [← hlog] at g1 g2
        exact ⟨g1, by rw [g2]; rfl, fun _ => rfl⟩
      · rw [BL_Init_missing os eclibPath functions s hp hl ha]
        obtain ⟨g1, g2⟩ := lifecycle_after_load s hs eclibPath (os.LoadLibrary eclibPath) _
          (hn (Event.printf abortFormat []) rfl)
        rw [← hlog] at g1 g2
        exact ⟨g1, by rw [g2]; rfl, fun _ => rfl⟩
  · rw [BL_Init_empty os eclibPath functions s hp]
    exact hs

theorem lifecycle_initial : LifecycleInv Globals.initial := by
  refine ⟨?_, ?_, ?_⟩
  · intro n; simp [Globals.initial, outstanding]
  · simp [Globals.initial, outstanding, TEClibFunctions.zero]
  · intro h; exact absurd rfl h

theorem lifecycle_run (calls : List Call) :
    ∀ s, LifecycleInv s → LifecycleInv (run calls s) := by
  induction calls with
  | nil => intro s hs; exact hs
  | cons c calls ih =>
    intro s hs
    have hstep : run (c :: calls) s = run calls (c.exec s) := by simp [run]
    rw [hstep]
    apply ih
    cases c with
    | Init os eclibPath functions => exact lifecycle_BL_Init os eclibPath functions s hs
    | End => exact lifecycle_BL_End s hs

theorem run_append (a b : List Call) (s : Globals) : run (a ++ b) s = run b (run a s) := by
  simp [run]

theorem emitted_trans (s t u : Globals) (a b : List Event) (h1 : t.log = s.log ++ a)
    (h2 : u.log = t.log ++ b) : emitted s u = a ++ b := by
  apply emitted_of_log
  rw [h2, h1, List.append_assoc]

theorem freeEvents_filter_loadOrFree (s : Globals) :
    (freeEvents s).filter Event.isLoadOrFree = freeEvents s := by
  rcases freeEvents_cases s with h | h <;> rw [h] <;>
    simp [Event.isLoadOrFree, Event.isLoad, Event.isFree]

theorem procEvents_filter_loadOrFree (os : Win32) (dll : HMODULE) (l : List Field) :
    (l.flatMap (procEvents os dll)).filter Event.isLoadOrFree = [] := by
  rw [List.filter_eq_nil_iff]
  intro e he
  obtain ⟨h1, h2, _, _⟩ := procEvents_no_load_free_assign os dll l e he
  simp [Event.isLoadOrFree, h1, h2]

/-- The loads and releases of one `BL_Init` with a non-empty path: the release
made by the leading `BL_End`, then the load; afterwards the flag is set and the
table holds the handle the load returned. -/
theorem BL_Init_loads_and_frees (os : Win32) (eclibPath : String) (functions : TablePtr)
    (s : Globals) (hp : eclibPath.isEmpty = false) :
    (BL_Init os eclibPath functions s).2.2.log
      = s.log ++ emitted s (BL_Init os eclibPath functions s).2.2 ∧
    (emitted s (BL_Init os eclibPath functions s).2.2).filter Event.isLoadOrFree
      = freeEvents s ++ [Event.LoadLibrary eclibPath (os.LoadLibrary eclibPath)] ∧
    (BL_Init os eclibPath functions s).2.2.initialized = true ∧
    (BL_Init os eclibPath functions s).2.2.ECLib.hECLibDll = os.LoadLibrary eclibPath := by
  have q : [Event.LoadLibrary eclibPath (os.LoadLibrary eclibPath)].filter Event.isLoadOrFree
      = [Event.LoadLibrary eclibPath (os.LoadLibrary eclibPath)] := rfl
  have key : ∀ last : Event, last.isLoadOrFree = false →
      (loadedEvents os eclibPath s ++ [last]).filter Event.isLoadOrFree
        = freeEvents s ++ [Event.LoadLibrary eclibPath (os.LoadLibrary eclibPath)] := by
    intro last hlast
    have e1 : [last].filter Event.isLoadOrFree = [] := by simp [hlast]
    simp only [loadedEvents, List.filter_append, freeEvents_filter_loadOrFree,
      procEvents_filter_loadOrFree, q, e1, List.append_nil]
  by_cases hl : os.LoadLibrary eclibPath = 0
  · rw [BL_Init_loadFails os eclibPath functions s hp hl]
    rw [emitted_of_log s _ (freeEvents s ++ [Event.LoadLibrary eclibPath 0])
      (by simp only [List.append_assoc])]
    refine ⟨by simp only [List.append_assoc], ?_, rfl, ?_⟩
    · rw [hl] at q
      simp only [List.filter_append, freeEvents_filter_loadOrFree, q, hl]
    · rw [hl]; rfl
  · by_cases ha : allResolve os eclibPath
    · rw [BL_Init_ok os eclibPath functions s hp hl ha]
      rw [emitted_of_log s _ (loadedEvents os eclibPath s ++ [Event.assignFunctions])
        (by simp only [List.append_assoc])]
      exact ⟨by simp only [List.append_assoc], key _ rfl, rfl, rfl⟩
    · rw [BL_Init_missing os eclibPath functions s hp hl ha]
      rw [emitted_of_log s _ (loadedEvents os eclibPath s ++ [Event.printf abortFormat []])
        (by simp only [List.append_assoc])]
      exact ⟨by simp only [List.append_assoc], key _ rfl, rfl, rfl⟩

/-- C9: for every sequence of `BL_Init` and `BL_End` calls from the initial
state, at every point of the trace the number of successful library loads not
yet matched by a release is zero or one; between calls it is one exactly when
the handle of the table is non-null and zero exactly when it is null, and it
is zero after a `BL_End`.  When `BL_Init` is then called twice in succession,
the first time on a library that loads, the loads and releases of the two
calls are, in this order: the release of what was held before (if anything),
the load of the first library, the release of the first library's handle, the
load of the second library. -/
theorem at_most_one_library_held (calls : List Call) :
    (∀ n, 0 ≤ outstanding ((run calls Globals.initial).log.take n) ∧
      outstanding ((run calls Globals.initial).log.take n) ≤ 1) ∧
    (outstanding (run calls Globals.initial).log = 1
      ↔ (run calls Globals.initial).ECLib.hECLibDll ≠ 0) ∧
    (outstanding (run calls Globals.initial).log = 0
      ↔ (run calls Globals.initial).ECLib.hECLibDll = 0) ∧
    outstanding (run (calls ++ [Call.End]) Globals.initial).log = 0 ∧
    (∀ (os1 : Win32) (p1 : String) (f1 : TablePtr) (os2 : Win32) (p2 : String)
        (f2 : TablePtr),
      p1.isEmpty = false → os1.LoadLibrary p1 ≠ 0 → p2.isEmpty = false →
      (emitted (run calls Globals.initial)
          (run (calls ++ [Call.Init os1 p1 f1, Call.Init os2 p2 f2])
            Globals.initial)).filter Event.isLoadOrFree
        = freeEvents (run calls Globals.initial) ++
            [Event.LoadLibrary p1 (os1.LoadLibrary p1),
             Event.FreeLibrary (os1.LoadLibrary p1),
             Event.LoadLibrary p2 (os2.LoadLibrary p2)]) := by
  have hinv := lifecycle_run calls Globals.initial lifecycle_initial
  obtain ⟨h1, h2, _⟩ := hinv
  refine ⟨h1, ?_, ?_, ?_, ?_⟩
  · rw [h2]
    by_cases h0 : (run calls Globals.initial).ECLib.hECLibDll = 0
    · simp [h0]
    · simp [h0]
  · rw [h2]
    by_cases h0 : (run calls Globals.initial).ECLib.hECLibDll = 0
    · simp [h0]
    · simp [h0]
  · have hend := lifecycle_run (calls ++ [Call.End]) Globals.initial lifecycle_initial
    obtain ⟨_, e2, _⟩ := hend
    rw [e2, run_append]
    have hz : (run [Call.End] (run calls Globals.initial)).ECLib.hECLibDll = 0 := by
      show (BL_End (run calls Globals.initial)).2.ECLib.hECLibDll = 0
      rw [BL_End_eq]; rfl
    rw [if_neg (not_not.mpr hz)]
  · intro os1 p1 f1 os2 p2 f2 hp1 hl1 hp2
    rw [run_append]
    have hrun : run [Call.Init os1 p1 f1, Call.Init os2 p2 f2] (run calls Globals.initial)
        = (BL_Init os2 p2 f2 (BL_Init os1 p1 f1 (run calls Globals.initial)).2.2).2.2 := rfl
    rw [hrun]
    obtain ⟨a1, a2, a3, a4⟩ := BL_Init_loads_and_frees os1 p1 f1 (run calls Globals.initial) hp1
    obtain ⟨b1, b2, _, _⟩ :=
      BL_Init_loads_and_frees os2 p2 f2 (BL_Init os1 p1 f1 (run calls Globals.initial)).2.2 hp2
    rw [emitted_trans _ _ _ _ _ a1 b1, List.filter_append, a2, b2]
    have hfree : freeEvents (BL_Init os1 p1 f1 (run calls Globals.initial)).2.2
        = [Event.FreeLibrary (os1.LoadLibrary p1)] := by
      unfold freeEvents
      rw [a3, a4, if_pos ⟨rfl, hl1⟩]
    rw [hfree]
    simp only [List.append_assoc, List.singleton_append]

/-- Two `BL_Init` in succession from the initial state, on two conformant
libraries: load of the first, release of the first, load of the second. -/
theorem at_most_one_library_held_witness :
    (emitted Globals.initial
        (run [Call.Init fullLib "a.dll" TablePtr.null,
              Call.Init otherLib "b.dll" TablePtr.ECLib]
          Globals.initial)).filter Event.isLoadOrFree
      = [Event.LoadLibrary "a.dll" 7, Event.FreeLibrary 7, Event.LoadLibrary "b.dll" 9] :=
  (at_most_one_library_held []).2.2.2.2 fullLib "a.dll" TablePtr.null otherLib "b.dll"
    TablePtr.ECLib (by decide) (by decide) (by decide)

/-! ## The two-state machine -/

theorem noLib_fails :
    BL_Init noLib "ECLib.dll" TablePtr.null Globals.initial =
      (ERR_GEN_FUNCTIONFAILED, TablePtr.null,
        { initialized := true, ECLib := TEClibFunctions.zero,
          log := Globals.initial.log ++ freeEvents Globals.initial
            ++ [Event.LoadLibrary "ECLib.dll" 0] }) :=
  BL_Init_loadFails noLib "ECLib.dll" TablePtr.null Globals.initial (by decide) (by decide)

/-- C10, counterexample: three failing `BL_Init` calls that do not end in
`Uninitialized`.  From the initial state, a load failure returns
`ERR_GEN_FUNCTIONFAILED` and leaves the initialized flag true; a library that
loads but lacks `BL_LoadFlash` returns `ERR_GEN_FUNCTIONFAILED` and leaves the
flag true and the handle `8` in the table; from a `Ready` state, an empty path
returns `ERR_GEN_INVALIDPARAMETERS` and leaves the state `Ready`. -/
theorem failed_init_not_uninitialized :
    ((BL_Init noLib "ECLib.dll" TablePtr.null Globals.initial).1 = ERR_GEN_FUNCTIONFAILED ∧
      (BL_Init noLib "ECLib.dll" TablePtr.null Globals.initial).2.2.initialized = true ∧
      ¬ Uninitialized (BL_Init noLib "ECLib.dll" TablePtr.null Globals.initial).2.2) ∧
    ((BL_Init partialLib "ECLib.dll" TablePtr.null Globals.initial).1
        = ERR_GEN_FUNCTIONFAILED ∧
      (BL_Init partialLib "ECLib.dll" TablePtr.null Globals.initial).2.2.ECLib.hECLibDll
        = 8 ∧
      ¬ Uninitialized (BL_Init partialLib "ECLib.dll" TablePtr.null Globals.initial).2.2) ∧
    (Ready readyState ∧
      (BL_Init fullLib "" readyRef readyState).1 = ERR_GEN_INVALIDPARAMETERS ∧
      Ready (BL_Init fullLib "" readyRef readyState).2.2 ∧
      ¬ Uninitialized (BL_Init fullLib "" readyRef readyState).2.2) := by
  have hready : Ready readyState := by
    unfold readyState
    rw [fullLib_ready]
    refine ⟨rfl, by decide, ?_⟩
    intro f
    simp [boundTable, fullLib]
  refine ⟨?_, ?_, ?_⟩
  · rw [noLib_fails]
    refine ⟨rfl, rfl, ?_⟩
    intro h
    exact absurd h.1 (by decide)
  · rw [BL_Init_missing partialLib "ECLib.dll" TablePtr.null Globals.initial (by decide)
      (by decide) partialLib_lacks]
    refine ⟨rfl, rfl, ?_⟩
    intro h
    exact absurd h.1 (by decide)
  · rw [BL_Init_empty fullLib "" readyRef readyState (by decide)]
    refine ⟨hready, rfl, hready, ?_⟩
    intro h
    have h1 := hready.1
    rw [h.1] at h1
    exact absurd h1 (by decide)

/-- C10, amended: for every prior state and every path, `BL_Init` ends in
`Ready` when it returns `ERR_NOERROR`, and `BL_End` ends in `Uninitialized`
from any state.  A failing `BL_Init` leaves one of three states: with an empty
path (`ERR_GEN_INVALIDPARAMETERS`) the state is unchanged; when the load fails
(`ERR_GEN_FUNCTIONFAILED`) the handle and every entry are null but the
initialized flag is true; when the library loads but lacks a symbol
(`ERR_GEN_FUNCTIONFAILED`) the flag is true, the table keeps the non-null
handle of the loaded library and every entry holds the address resolved for
its own name. -/
theorem lifecycle_transitions (os : Win32) (eclibPath : String) (functions : TablePtr)
    (s : Globals) :
    ((BL_Init os eclibPath functions s).1 = ERR_NOERROR →
      Ready (BL_Init os eclibPath functions s).2.2) ∧
    Uninitialized (BL_End s).2 ∧
    (eclibPath.isEmpty = true →
      (BL_Init os eclibPath functions s).1 = ERR_GEN_INVALIDPARAMETERS ∧
      (BL_Init os eclibPath functions s).2.2 = s) ∧
    (eclibPath.isEmpty = false → os.LoadLibrary eclibPath = 0 →
      (BL_Init os eclibPath functions s).1 = ERR_GEN_FUNCTIONFAILED ∧
      (BL_Init os eclibPath functions s).2.2.initialized = true ∧
      (BL_Init os eclibPath functions s).2.2.ECLib.hECLibDll = 0 ∧
      ∀ f : Field, (BL_Init os eclibPath functions s).2.2.ECLib.proc f = 0) ∧
    (eclibPath.isEmpty = false → os.LoadLibrary eclibPath ≠ 0 →
      (∃ nm, nm ∈ symbolNames ∧ os.GetProcAddress (os.LoadLibrary eclibPath) nm = 0) →
      (BL_Init os eclibPath functions s).1 = ERR_GEN_FUNCTIONFAILED ∧
      (BL_Init os eclibPath functions s).2.2.initialized = true ∧
      (BL_Init os eclibPath functions s).2.2.ECLib.hECLibDll = os.LoadLibrary eclibPath ∧
      (BL_Init os eclibPath functions s).2.2.ECLib.hECLibDll ≠ 0 ∧
      ∀ f : Field, (BL_Init os eclibPath functions s).2.2.ECLib.proc f
        = os.GetProcAddress (os.LoadLibrary eclibPath) f.name) := by
  refine ⟨?_, ?_, ?_, ?_, ?_⟩
  · intro hst
    cases hp : eclibPath.isEmpty
    · by_cases hl : os.LoadLibrary eclibPath = 0
      · rw [BL_Init_loadFails os eclibPath functions s hp hl] at hst
        cases hst
      · by_cases ha : allResolve os eclibPath
        · rw [BL_Init_ok os eclibPath functions s hp hl ha]
          exact ⟨rfl, hl, fun f => ha f (mem_procedures f)⟩
        · rw [BL_Init_missing os eclibPath functions s hp hl ha] at hst
          cases hst
    · rw [BL_Init_empty os eclibPath functions s hp] at hst
      cases hst
  · rw [BL_End_eq]
    exact ⟨rfl, rfl, fun _ => rfl⟩
  · intro hp
    rw [BL_Init_empty os eclibPath functions s hp]
    exact ⟨rfl, rfl⟩
  · intro hp hl
    rw [BL_Init_loadFails os eclibPath functions s hp hl]
    exact ⟨rfl, rfl, rfl, fun _ => rfl⟩
  · intro hp hl hm
    have ha : ¬ allResolve os eclibPath := by
      rw [allResolve_iff_names]
      obtain ⟨nm, h1, h2⟩ := hm
      exact fun h => h nm h1 h2
    rw [BL_Init_missing os eclibPath functions s hp hl ha]
    exact ⟨rfl, rfl, rfl, hl, fun _ => rfl⟩

/-- The transitions at the sample libraries from the initial state: success
ends in `Ready`; a failed load leaves the flag set with a null handle. -/
theorem lifecycle_transitions_witness :
    Ready (BL_Init fullLib "ECLib.dll" TablePtr.null Globals.initial).2.2 ∧
    (BL_Init noLib "ECLib.dll" TablePtr.null Globals.initial).2.2.initialized = true ∧
    (BL_Init noLib "ECLib.dll" TablePtr.null Globals.initial).2.2.ECLib.hECLibDll = 0 :=
  have hno := (lifecycle_transitions noLib "ECLib.dll" TablePtr.null Globals.initial).2.2.2.1
    (by decide) (by decide)
  ⟨(lifecycle_transitions fullLib "ECLib.dll" TablePtr.null Globals.initial).1
      (by rw [fullLib_ready]),
    hno.2.1, hno.2.2.1⟩

/-! ## The empty path with a library loaded -/

theorem readyState_eq :
    readyState =
      { initialized := true, ECLib := boundTable fullLib "ECLib.dll",
        log := Globals.initial.log ++ loadedEvents fullLib "ECLib.dll" Globals.initial
          ++ [Event.assignFunctions] } := by
  unfold readyState
  rw [fullLib_ready]

theorem readyState_loaded : LibraryLoaded readyState := by
  rw [readyState_eq]
  exact ⟨rfl, by decide⟩

/-- C11, counterexample: from the state a successful `BL_Init` leaves (library
loaded, handle `7`), `BL_Init` with the empty path returns
`ERR_GEN_INVALIDPARAMETERS` without any `FreeLibrary` call (it performs no
effect at all), and the table still holds the handle `7` and the non-null entry
`BL_Connect`: the previous instance was not torn down. -/
theorem empty_path_keeps_previous_instance :
    "".isEmpty = true ∧
    LibraryLoaded readyState ∧
    (BL_Init fullLib "" readyRef readyState).1 = ERR_GEN_INVALIDPARAMETERS ∧
    emitted readyState (BL_Init fullLib "" readyRef readyState).2.2 = [] ∧
    (BL_Init fullLib "" readyRef readyState).2.2.ECLib.hECLibDll = 7 ∧
    (BL_Init fullLib "" readyRef readyState).2.2.ECLib.proc Field.BL_Connect ≠ 0 ∧
    (BL_Init fullLib "" readyRef readyState).2.2.initialized = true := by
  rw [BL_Init_empty fullLib "" readyRef readyState (by decide), emitted_self, readyState_eq]
  refine ⟨by decide, ?_, rfl, rfl, rfl, ?_, rfl⟩
  · exact ⟨rfl, by decide⟩
  · simp [boundTable, fullLib]

/-- C11, amended: for every empty path and every prior state in which a
library is loaded, `BL_Init` returns `ERR_GEN_INVALIDPARAMETERS` without
tearing down the previous instance: it makes no `FreeLibrary` call (no call at
all), and when it returns the table, its handle and the flag are as before, so
the library is still loaded; the handle is released by the next `BL_End`. -/
theorem BL_Init_empty_path_keeps_library (os : Win32) (eclibPath : String)
    (functions : TablePtr) (s : Globals)
    (hp : eclibPath.isEmpty = true) (hs : LibraryLoaded s) :
    (BL_Init os eclibPath functions s).1 = ERR_GEN_INVALIDPARAMETERS ∧
    emitted s (BL_Init os eclibPath functions s).2.2 = [] ∧
    (∀ e, e ∈ emitted s (BL_Init os eclibPath functions s).2.2 → e.isFree = false) ∧
    (BL_Init os eclibPath functions s).2.2.ECLib.hECLibDll = s.ECLib.hECLibDll ∧
    (∀ f : Field, (BL_Init os eclibPath functions s).2.2.ECLib.proc f = s.ECLib.proc f) ∧
    LibraryLoaded (BL_Init os eclibPath functions s).2.2 ∧
    emitted (BL_Init os eclibPath functions s).2.2
        (BL_End (BL_Init os eclibPath functions s).2.2).2
      = [Event.FreeLibrary s.ECLib.hECLibDll] := by
  rw [BL_Init_empty os eclibPath functions s hp, emitted_self]
  refine ⟨rfl, rfl, ?_, rfl, fun _ => rfl, hs, ?_⟩
  · intro e he
    simp at he
  · rw [BL_End_eq]
    apply emitted_of_log
    have hf : freeEvents s = [Event.FreeLibrary s.ECLib.hECLibDll] := by
      unfold freeEvents
      exact if_pos hs
    rw [hf]

/-- The empty path from the state a successful `BL_Init` leaves. -/
theorem BL_Init_empty_path_keeps_library_witness :
    "".isEmpty = true ∧ LibraryLoaded readyState ∧
    (BL_Init fullLib "" readyRef readyState).1 = ERR_GEN_INVALIDPARAMETERS ∧
    LibraryLoaded (BL_Init fullLib "" readyRef readyState).2.2 :=
  have h := BL_Init_empty_path_keeps_library fullLib "" readyRef readyState (by decide)
    readyState_loaded
  ⟨by decide, readyState_loaded, h.1, h.2.2.2.2.2.1⟩

/-! ## Diagnostics on a load failure -/

/-- C12, counterexample: from the initial state, `BL_Init` on a non-empty path
whose load fails returns `ERR_GEN_FUNCTIONFAILED` and its only effect is the
failed `LoadLibrary` call: nothing is printed. -/
theorem load_failure_prints_nothing :
    "ECLib.dll".isEmpty = false ∧
    noLib.LoadLibrary "ECLib.dll" = 0 ∧
    (BL_Init noLib "ECLib.dll" TablePtr.null Globals.initial).1 = ERR_GEN_FUNCTIONFAILED ∧
    emitted Globals.initial (BL_Init noLib "ECLib.dll" TablePtr.null Globals.initial).2.2
      = [Event.LoadLibrary "ECLib.dll" 0] ∧
    (emitted Globals.initial
        (BL_Init noLib "ECLib.dll" TablePtr.null Globals.initial).2.2).filter Event.isPrintf
      = [] := by
  rw [noLib_fails]
  have hev : emitted Globals.initial
      { initialized := true, ECLib := TEClibFunctions.zero,
        log := Globals.initial.log ++ freeEvents Globals.initial
          ++ [Event.LoadLibrary "ECLib.dll" 0] }
      = [Event.LoadLibrary "ECLib.dll" 0] := by
    apply emitted_of_log
    simp [freeEvents, Globals.initial]
  rw [hev]
  exact ⟨by decide, by decide, rfl, rfl, rfl⟩

/-- C12, amended: for every prior state and every non-empty path whose library
load fails, `BL_Init` prints nothing: its effects are the release made by the
leading `BL_End` (when a library was held) and the failed `LoadLibrary` call,
and the failure is reported only by the returned status
`ERR_GEN_FUNCTIONFAILED`. -/
theorem BL_Init_load_failure_silent (os : Win32) (eclibPath : String)
    (functions : TablePtr) (s : Globals)
    (hp : eclibPath.isEmpty = false) (hl : os.LoadLibrary eclibPath = 0) :
    (BL_Init os eclibPath functions s).1 = ERR_GEN_FUNCTIONFAILED ∧
    (emitted s (BL_Init os eclibPath functions s).2.2).filter Event.isPrintf = [] ∧
    (∀ e, e ∈ emitted s (BL_Init os eclibPath functions s).2.2 → e.isPrintf = false) := by
  rw [BL_Init_loadFails os eclibPath functions s hp hl]
  rw [emitted_of_log s _ (freeEvents s ++ [Event.LoadLibrary eclibPath 0])
    (by simp only [List.append_assoc])]
  have hall : ∀ e, e ∈ freeEvents s ++ [Event.LoadLibrary eclibPath 0] →
      e.isPrintf = false := by
    intro e he
    simp only [List.mem_append, List.mem_singleton] at he
    rcases he with he | he
    · rcases freeEvents_cases s with h0 | h0
      · rw [h0] at he; simp at he
      · rw [h0] at he
        simp only [List.mem_singleton] at he
        subst he; rfl
    · subst he; rfl
  refine ⟨rfl, ?_, hall⟩
  rw [List.filter_eq_nil_iff]
  intro e he
  rw [hall e he]
  decide

/-- The failing load from the state a successful `BL_Init` leaves. -/
theorem BL_Init_load_failure_silent_witness :
    "ECLib.dll".isEmpty = false ∧ noLib.LoadLibrary "ECLib.dll" = 0 ∧
    (BL_Init noLib "ECLib.dll" readyRef readyState).1 = ERR_GEN_FUNCTIONFAILED ∧
    (emitted readyState
        (BL_Init noLib "ECLib.dll" readyRef readyState).2.2).filter Event.isPrintf = [] :=
  have h := BL_Init_load_failure_silent noLib "ECLib.dll" readyRef readyState
    (by decide) (by decide)
  ⟨by decide, by decide, h.1, h.2.1⟩

/-! ## Releases along a call sequence -/

theorem ledger_append (a b : List Event) :
    ∀ held, ledger held (a ++ b) = (ledger held a).bind (fun held1 => ledger held1 b) := by
  induction a with
  | nil => intro held; rfl
  | cons e a ih =>
    intro held
    simp only [List.cons_append, ledger]
    cases ledgerStep held e with
    | none => rfl
    | some held1 => exact ih held1

theorem ledgerStep_neutral (held : Option HMODULE) (e : Event) (he : e.delta = 0) :
    ledgerStep held e = some held := by
  cases e with
  | LoadLibrary path ret =>
    by_cases hr : ret = 0
    · simp [ledgerStep, hr]
    · simp [Event.delta, hr] at he
  | FreeLibrary dll => simp [Event.delta] at he
  | GetProcAddress dll nm ret => rfl
  | printf fmt args => rfl
  | assignFunctions => rfl

theorem ledger_neutral (b : List Event) (held : Option HMODULE)
    (hb : ∀ e, e ∈ b → e.delta = 0) : ledger held b = some held := by
  induction b with
  | nil => rfl
  | cons e b ih =>
    simp only [ledger]
    rw [ledgerStep_neutral held e (hb e (by simp))]
    exact ih (fun x hx => hb x (List.mem_cons_of_mem _ hx))

/-- What an accepted trace says about each of its releases: the released
handle is non-null and is either the record the ledger started from, with no
release and no successful load before it, or the handle returned by an earlier
load of the trace with no release and no successful load in between. -/
theorem ledger_sound (trace : List Event) :
    ∀ (held r : Option HMODULE), ledger held trace = some r →
      ∀ (pre : List Event) (h : HMODULE) (post : List Event),
        trace = pre ++ Event.FreeLibrary h :: post →
        h ≠ 0 ∧
        ((held = some h ∧ ∀ e, e ∈ pre → e.delta = 0) ∨
          ∃ pre1 path mid, pre = pre1 ++ Event.LoadLibrary path h :: mid ∧
            ∀ e, e ∈ mid → e.delta = 0) := by
  induction trace with
  | nil =>
    intro held r _ pre h post heq
    simp at heq
  | cons e trace ih =>
    intro held r hacc pre h post heq
    simp only [ledger] at hacc
    cases pre with
    | nil =>
      simp only [List.nil_append, List.cons.injEq] at heq
      obtain ⟨he, _⟩ := heq
      subst he
      by_cases hc : h ≠ 0 ∧ held = some h
      · exact ⟨hc.1, Or.inl ⟨hc.2, by simp⟩⟩
      · simp [ledgerStep, hc] at hacc
    | cons e1 pre1 =>
      simp only [List.cons_append, List.cons.injEq] at heq
      obtain ⟨he, htr⟩ := heq
      subst he
      cases hstep : ledgerStep held e with
      | none => rw [hstep] at hacc; simp at hacc
      | some held1 =>
        rw [hstep] at hacc
        obtain ⟨hne, hcase⟩ := ih held1 r hacc pre1 h post htr
        refine ⟨hne, ?_⟩
        rcases hcase with ⟨hheld, hpre⟩ | ⟨p1, path, mid, hp1, hmid⟩
        · cases e with
          | LoadLibrary path ret =>
            by_cases hr : ret = 0
            · simp only [ledgerStep, hr, if_true, Option.some.injEq] at hstep
              left
              refine ⟨by rw [hstep]; exact hheld, ?_⟩
              intro x hx
              rcases List.mem_cons.mp hx with hx | hx
              · rw [hx, hr]; rfl
              · exact hpre x hx
            · simp only [ledgerStep, hr, if_false, Option.some.injEq] at hstep
              right
              have hret : ret = h := by
                rw [← hstep] at hheld
                exact Option.some.inj hheld
              exact ⟨[], path, pre1, by rw [hret]; rfl, hpre⟩
          | FreeLibrary dll =>
            by_cases hc : dll ≠ 0 ∧ held = some dll
            · have hs2 : ledgerStep held (Event.FreeLibrary dll) = some none := by
                unfold ledgerStep
                exact if_pos hc
              rw [hs2] at hstep
              have h2 : none = held1 := Option.some.inj hstep
              rw [← h2] at hheld
              cases hheld
            · simp [ledgerStep, hc] at hstep
          | GetProcAddress dll nm ret =>
            have h1 : held = held1 := Option.some.inj hstep
            left
            refine ⟨by rw [h1]; exact hheld, ?_⟩
            intro x hx
            rcases List.mem_cons.mp hx with hx | hx
            · rw [hx]; rfl
            · exact hpre x hx
          | printf fmt args =>
            have h1 : held = held1 := Option.some.inj hstep
            left
            refine ⟨by rw [h1]; exact hheld, ?_⟩
            intro x hx
            rcases List.mem_cons.mp hx with hx | hx
            · rw [hx]; rfl
            · exact hpre x hx
          | assignFunctions =>
            have h1 : held = held1 := Option.some.inj hstep
            left
            refine ⟨by rw [h1]; exact hheld, ?_⟩
            intro x hx
            rcases List.mem_cons.mp hx with hx | hx
            · rw [hx]; rfl
            · exact hpre x hx
        · right
          exact ⟨e :: p1, path, mid, by rw [hp1]; rfl, hmid⟩

theorem release_after_free (s : Globals) (hs : ReleaseInv s) :
    ledger none (s.log ++ freeEvents s) = some none := by
  obtain ⟨h1, h2⟩ := hs
  rw [ledger_append, h1]
  unfold freeEvents
  by_cases hc : s.initialized = true ∧ s.ECLib.hECLibDll ≠ 0
  · rw [if_pos hc, if_pos hc.2]
    simp [ledger, ledgerStep, hc.2]
  · have h0 : s.ECLib.hECLibDll = 0 := by
      by_contra hne
      exact hc ⟨h2 hne, hne⟩
    rw [if_neg hc, if_neg (not_not.mpr h0)]
    rfl

theorem release_after_load (s : Globals) (hs : ReleaseInv s) (path : String)
    (h : HMODULE) (tail : List Event) (ht : ∀ e, e ∈ tail → e.delta = 0) :
    ledger none (s.log ++ freeEvents s ++ [Event.LoadLibrary path h] ++ tail)
      = some (if h ≠ 0 then some h else none) := by
  rw [ledger_append, ledger_append, release_after_free s hs]
  by_cases h0 : h = 0
  · simp [ledger, ledgerStep, h0, ledger_neutral tail none ht]
  · simp [ledger, ledgerStep, h0, ledger_neutral tail (some h) ht]

theorem releaseInv_BL_End (s : Globals) (hs : ReleaseInv s) : ReleaseInv (BL_End s).2 := by
  rw [BL_End_eq]
  refine ⟨?_, ?_⟩
  · rw [release_after_free s hs]
    simp [TEClibFunctions.zero]
  · intro h; exact absurd rfl h

theorem releaseInv_BL_Init (os : Win32) (eclibPath : String) (functions : TablePtr)
    (s : Globals) (hs : ReleaseInv s) :
    ReleaseInv (BL_Init os eclibPath functions s).2.2 := by
  cases hp : eclibPath.isEmpty
  · by_cases hl : os.LoadLibrary eclibPath = 0
    · rw [BL_Init_loadFails os eclibPath functions s hp hl]
      have g := release_after_load s hs eclibPath 0 [] (by simp)
      rw [List.append_nil] at g
      refine ⟨?_, fun _ => rfl⟩
      rw [g]
      simp [TEClibFunctions.zero]
    · have hn : ∀ last : Event, last.delta = 0 →
          ∀ e, e ∈ procedures.flatMap (procEvents os (os.LoadLibrary eclibPath)) ++ [last] →
            e.delta = 0 := by
        intro last hlast e he
        rcases List.mem_append.mp he with h1 | h1
        · exact (procEvents_no_load_free_assign os _ procedures e h1).2.2.2
        · simp only [List.mem_singleton] at h1
          rw [h1]; exact hlast
      have hlog : ∀ last : Event,
          s.log ++ loadedEvents os eclibPath s ++ [last]
            = s.log ++ freeEvents s
                ++ [Event.LoadLibrary eclibPath (os.LoadLibrary eclibPath)]
                ++ (procedures.flatMap (procEvents os (os.LoadLibrary eclibPath)) ++ [last]) := by
        intro last
        simp only [loadedEvents, List.append_assoc]
      by_cases ha : allResolve os eclibPath
      · rw [BL_Init_ok os eclibPath functions s hp hl ha]
        have g := release_after_load s hs eclibPath (os.LoadLibrary eclibPath) _
          (hn Event.assignFunctions rfl)
        rw [← hlog] at g
        exact ⟨by rw [g]; rfl, fun _ => rfl⟩
      · rw [BL_Init_missing os eclibPath functions s hp hl ha]
        have g := release_after_load s hs eclibPath (os.LoadLibrary eclibPath) _
          (hn (Event.printf abortFormat []) rfl)
        rw [← hlog] at g
        exact ⟨by rw [g]; rfl, fun _ => rfl⟩
  · rw [BL_Init_empty os eclibPath functions s hp]
    exact hs

theorem releaseInv_initial : ReleaseInv Globals.initial := by
  refine ⟨?_, ?_⟩
  · simp [Globals.initial, ledger, TEClibFunctions.zero]
  · intro h; exact absurd rfl h

theorem releaseInv_run (calls : List Call) :
    ∀ s, ReleaseInv s → ReleaseInv (run calls s) := by
  induction calls with
  | nil => intro s hs; exact hs
  | cons c calls ih =>
    intro s hs
    have hstep : run (c :: calls) s = run calls (c.exec s) := by simp [run]
    rw [hstep]
    apply ih
    cases c with
    | Init os eclibPath functions => exact releaseInv_BL_Init os eclibPath functions s hs
    | End => exact releaseInv_BL_End s hs

/-- C13: every `BL_Init` call with a non-empty path leaves the initialized
flag true, whether the load and the symbol resolution succeeded or failed.
Nevertheless, in the trace of every sequence of `BL_Init` and `BL_End` calls
from the initial state, every `FreeLibrary` call is made with a non-null handle
that an earlier `LoadLibrary` call of the trace returned, with no release (and
no other successful load) between that load and the release: no release of a
null handle, no double release.  In particular, after a `BL_Init` whose load
failed the flag is true and the following `BL_End` performs no effect at all,
so it releases nothing. -/
theorem release_only_of_held_handle (calls : List Call) :
    (∀ (os : Win32) (eclibPath : String) (functions : TablePtr) (s : Globals),
      eclibPath.isEmpty = false →
      (BL_Init os eclibPath functions s).2.2.initialized = true) ∧
    (∀ (pre : List Event) (h : HMODULE) (post : List Event),
      (run calls Globals.initial).log = pre ++ Event.FreeLibrary h :: post →
      h ≠ 0 ∧
      ∃ pre1 path mid, pre = pre1 ++ Event.LoadLibrary path h :: mid ∧
        ∀ e, e ∈ mid → e.isFree = false ∧ e.delta = 0) ∧
    (∀ (os : Win32) (eclibPath : String) (functions : TablePtr),
      eclibPath.isEmpty = false → os.LoadLibrary eclibPath = 0 →
      (run (calls ++ [Call.Init os eclibPath functions]) Globals.initial).initialized
        = true ∧
      emitted (run (calls ++ [Call.Init os eclibPath functions]) Globals.initial)
          (run (calls ++ [Call.Init os eclibPath functions, Call.End]) Globals.initial)
        = []) := by
  refine ⟨?_, ?_, ?_⟩
  · intro os eclibPath functions s hp
    exact (BL_Init_loads_and_frees os eclibPath functions s hp).2.2.1
  · intro pre h post hlog
    obtain ⟨hacc, _⟩ := releaseInv_run calls Globals.initial releaseInv_initial
    obtain ⟨hne, hcase⟩ := ledger_sound _ none _ hacc pre h post hlog
    refine ⟨hne, ?_⟩
    rcases hcase with ⟨hheld, _⟩ | ⟨pre1, path, mid, hpre, hmid⟩
    · cases hheld
    · refine ⟨pre1, path, mid, hpre, ?_⟩
      intro e he
      have hd := hmid e he
      refine ⟨?_, hd⟩
      cases e with
      | FreeLibrary dll => simp [Event.delta] at hd
      | LoadLibrary p r => rfl
      | GetProcAddress dll nm ret => rfl
      | printf fmt args => rfl
      | assignFunctions => rfl
  · intro os eclibPath functions hp hl
    have h1 : run (calls ++ [Call.Init os eclibPath functions]) Globals.initial
        = (BL_Init os eclibPath functions (run calls Globals.initial)).2.2 := by
      rw [run_append]; rfl
    have h2 : run (calls ++ [Call.Init os eclibPath functions, Call.End]) Globals.initial
        = (BL_End (BL_Init os eclibPath functions (run calls Globals.initial)).2.2).2 := by
      rw [run_append]; rfl
    rw [h1, h2, BL_Init_loadFails os eclibPath functions _ hp hl, BL_End_eq]
    refine ⟨rfl, ?_⟩
    apply emitted_of_log
    simp [freeEvents, TEClibFunctions.zero]

/-- A successful `BL_Init`, then a `BL_Init` whose load fails, then `BL_End`:
the flag is true after the failed load and the `BL_End` releases nothing; the
one release of the trace, of the handle `7`, follows the load that returned
`7`. -/
theorem release_only_of_held_handle_witness :
    "ECLib.dll".isEmpty = false ∧ noLib.LoadLibrary "ECLib.dll" = 0 ∧
    (run ([Call.Init fullLib "ECLib.dll" TablePtr.null]
        ++ [Call.Init noLib "ECLib.dll" TablePtr.ECLib]) Globals.initial).initialized = true ∧
    emitted
        (run ([Call.Init fullLib "ECLib.dll" TablePtr.null]
          ++ [Call.Init noLib "ECLib.dll" TablePtr.ECLib]) Globals.initial)
        (run ([Call.Init fullLib "ECLib.dll" TablePtr.null]
          ++ [Call.Init noLib "ECLib.dll" TablePtr.ECLib, Call.End]) Globals.initial)
      = [] ∧
    (∃ pre1 path mid,
      (run [Call.Init fullLib "ECLib.dll" TablePtr.null] Globals.initial).log
        = pre1 ++ Event.LoadLibrary path 7 :: mid ∧
      ∀ e, e ∈ mid → e.isFree = false ∧ e.delta = 0) :=
  have h := (release_only_of_held_handle [Call.Init fullLib "ECLib.dll" TablePtr.null]).2.2
    noLib "ECLib.dll" TablePtr.ECLib (by decide) (by decide)
  have hrel := ((release_only_of_held_handle
      [Call.Init fullLib "ECLib.dll" TablePtr.null,
       Call.Init noLib "ECLib.dll" TablePtr.ECLib]).2.1
    (run [Call.Init fullLib "ECLib.dll" TablePtr.null] Globals.initial).log 7
    [Event.LoadLibrary "ECLib.dll" 0] (by decide)).2
  ⟨by decide, by decide, h.1, h.2, hrel⟩

end BLWrap
